import Mathlib

/-!
# go-ml: correlation matrix and plotting front end

A shallow embedding of `dataset/dataset.go` and `plotter/plotter.go`.

* `float64` values are modelled by `F64`: either the not-a-number value or an exact
  rational, so arithmetic is exact and `math.IsNaN` is decidable; there are no
  infinities.
* Go slices that are written through (the argument of `PlotHistogram`) live in an
  explicit `Heap`; a slice value is the address of its backing array (every slice
  of the plotter is a whole array, as `make` returns it).
* A Go panic or `log.Fatalf` is an `Except` error; loops are folds over the index
  range, in the order the Go loop visits the indices.
* Functions of the external libraries are parameters: `Correlation` for gonum
  `stat`, the structure `PlotLib` for gonum `plot`.
* The plotting functions are followed up to the last plot or line they add; creating
  the `plot` directory and writing the image file come after and are not modelled.
* In `PlotMetrics`, whose length is a free integer, `make` is modelled with its
  length check; elsewhere a `make` of the length of a slice that already exists is
  taken to succeed.
-/

namespace GoML

/-! ## float64 -/

/-- A `float64`: not-a-number, or an exact rational value. -/
inductive F64 where
  | nan : F64
  | num (q : ℚ) : F64
deriving DecidableEq

namespace F64

/-- The zero value of `float64`. -/
def zero : F64 := num 0

/-- The constant `1.0`. -/
def one : F64 := num 1

/-- Go `math.IsNaN`. -/
def IsNaN : F64 → Bool
  | nan => true
  | num _ => false

/-- Go `*` on `float64` (exact; not-a-number is absorbing). -/
def mul : F64 → F64 → F64
  | num a, num b => num (a * b)
  | _, _ => nan

/-- Go `+` on `float64` (exact; not-a-number is absorbing). -/
def add : F64 → F64 → F64
  | num a, num b => num (a + b)
  | _, _ => nan

/-- Go `==` on `float64`: not-a-number is equal to nothing, itself included. -/
def eq : F64 → F64 → Bool
  | num a, num b => decide (a = b)
  | _, _ => false

end F64

/-! ## dataset.go -/

/-- A gota `series.Series` as `GetCorrelationMatrix` sees it: its name and its
`Float()` values. -/
structure Series where
  Name : String
  Float : List F64

/-- A gota `dataframe.DataFrame`: named columns that all hold `nrow` values. -/
structure DataFrame where
  columns : List Series
  nrow : Nat
  wf : ∀ s ∈ columns, s.Float.length = nrow

/-- Go `df.Names()`. -/
def DataFrame.Names (df : DataFrame) : List String :=
  df.columns.map Series.Name

/-- Go `df.Col(name).Float()`: the values of the first column called `name`
(no values when there is none; `GetCorrelationMatrix` only asks for names
taken from `df.Names()`). -/
def DataFrame.Col (df : DataFrame) (name : String) : List F64 :=
  match df.columns.find? (fun s => s.Name == name) with
  | some s => s.Float
  | none => []

/-- Go `type CorrelationMatrix [][]float64`. -/
abbrev CorrelationMatrix := List (List F64)

/-- Go `corrMatrix[i][j] = v`. -/
def setCell (m : CorrelationMatrix) (i j : Nat) (v : F64) : CorrelationMatrix :=
  m.set i ((m.getD i []).set j v)

/-- Go `GetCorrelationMatrix`. `Correlation x y` is gonum's
`stat.Correlation(x, y, nil)`.

The outer loop runs `i` over `0 .. C-1`; it replaces row `i` by `C` zeros and
the inner loop runs `j` over `i .. C-1`, storing `1.0` when `i == j` and the
correlation of columns `i` and `j` otherwise. -/
def GetCorrelationMatrix (Correlation : List F64 → List F64 → F64)
    (df : DataFrame) : CorrelationMatrix :=
  let columns := df.Names
  let corrMatrix : CorrelationMatrix := List.replicate columns.length []
  (List.range columns.length).foldl
    (fun corrMatrix i =>
      let corrMatrix := corrMatrix.set i (List.replicate columns.length F64.zero)
      (List.range' i (columns.length - i)).foldl
        (fun corrMatrix j =>
          if i = j then
            setCell corrMatrix i j F64.one
          else
            let col1 := df.Col (columns.getD i "")
            let col2 := df.Col (columns.getD j "")
            let corr := Correlation col1 col2
            setCell corrMatrix i j corr)
        corrMatrix)
    corrMatrix

/-- Entry `M[i][j]` of a matrix, when both indices are in range. -/
def CorrelationMatrix.entry (m : CorrelationMatrix) (i j : Nat) : Option F64 :=
  (m.get? i).bind (fun row => row.get? j)

/-- Value the inner loop of `GetCorrelationMatrix` stores at `(i, j)`. -/
def cellValue (Correlation : List F64 → List F64 → F64) (df : DataFrame) (i j : Nat) : F64 :=
  if i = j then F64.one
  else Correlation (df.Col (df.Names.getD i "")) (df.Col (df.Names.getD j ""))

/-- Row `i` as `GetCorrelationMatrix` leaves it: zeros left of the diagonal,
the stored values from the diagonal on. -/
def rowOf (Correlation : List F64 → List F64 → F64) (df : DataFrame) (i : Nat) : List F64 :=
  (List.range df.Names.length).map
    (fun j => if j < i then F64.zero else cellValue Correlation df i j)

/-! ## plotter.go: data -/

/-- A gonum `plotter.XY`. -/
structure XY where
  X : F64
  Y : F64
deriving DecidableEq

/-- The zero value of `plotter.XY`. -/
def XY.zero : XY := ⟨F64.zero, F64.zero⟩

/-- A `color.Color` as the plotter uses it. -/
inductive Color where
  | rgba (r g b a : Nat) : Color
  | palette (i : Nat) : Color
  | default : Color
  | none : Color
deriving DecidableEq

/-- What `plot.Add` receives: a scatter, a line or a histogram, with the data it
was built from and the style set on it. -/
inductive Plotter where
  | scatter (pts : List XY) (radius : ℚ) (color : Color) : Plotter
  | line (pts : List XY) (width : ℚ) (color : Color) : Plotter
  | hist (values : List F64) (bins : Nat) (fill : Color) : Plotter
deriving DecidableEq

/-- A gonum `plot.Plot`: title, axis labels, the plotters added and the legend
entries, in the order they were added. -/
structure Plot where
  Title : String
  XLabel : String
  YLabel : String
  plotters : List Plotter
  Legend : List String
deriving DecidableEq

/-- Go `plot.New()`. -/
def Plot.New : Plot := ⟨"", "", "", [], []⟩

/-- Go `plot.Add(ps...)`. -/
def Plot.Add (p : Plot) (ps : List Plotter) : Plot :=
  { p with plotters := p.plotters ++ ps }

/-- How a call stops abnormally: a run-time panic on an index, a `make` that
cannot allocate, `log.Panic`/`log.Fatalf` on an error returned by a library
constructor (or a panic inside the library), or `log.Fatalf` with a message. -/
inductive Panic where
  | indexOutOfRange (index length : Nat) : Panic
  | makeslice : Panic
  | library (call : String) : Panic
  | fatal (msg : String) : Panic
deriving DecidableEq

/-- The part of gonum `plot` the plotter calls. Each constructor is given by
whether it returns without error on its argument; `New w h` says whether
`vgimg.New(w, h)` returns a canvas for a positive width and height (an image too
large to allocate makes it fail); `Inch` is `vg.Inch`. -/
structure PlotLib where
  NewScatter : List XY → Bool
  NewLine : List XY → Bool
  NewHist : List F64 → Nat → Bool
  New : ℚ → ℚ → Bool
  Inch : ℚ

/-- Go `xs[i]` on a slice: a panic when `i` is out of range. -/
def index {α : Type} (xs : List α) (i : Nat) : Except Panic α :=
  match xs.get? i with
  | some x => .ok x
  | none => .error (.indexOutOfRange i xs.length)

/-- Go `pts[i].X = v`. -/
def setX (pts : List XY) (i : Nat) (v : F64) : List XY :=
  pts.set i { pts.getD i XY.zero with X := v }

/-- Go `pts[i].Y = v`. -/
def setY (pts : List XY) (i : Nat) (v : F64) : List XY :=
  pts.set i { pts.getD i XY.zero with Y := v }

/-! ## plotter.go: PlotScatter -/

/-- Body of the loop of `PlotScatter` at index `i`. -/
def PlotScatter.body (xData yData : List F64) (pts : List XY) (i : Nat) :
    Except Panic (List XY) := do
  let x ← index xData i
  let pts := if x.IsNaN then setX pts i F64.zero else setX pts i x
  let y ← index yData i
  let pts := if y.IsNaN then setY pts i F64.zero else setY pts i y
  pure pts

/-- The points `PlotScatter` builds: `pts := make(plotter.XYs, len(xData))`
followed by the loop `for i := range xData`. -/
def PlotScatter.points (xData yData : List F64) : Except Panic (List XY) :=
  (List.range xData.length).foldlM (PlotScatter.body xData yData)
    (List.replicate xData.length XY.zero)

/-- Go `PlotScatter`. It reads its two slices and writes neither, so they are
passed by value. -/
def PlotScatter (lib : PlotLib) (xData yData : List F64) (xLabel yLabel : String) :
    Except Panic Plot := do
  let pts ← PlotScatter.points xData yData
  let plot : Plot :=
    { Plot.New with Title := yLabel ++ " vs " ++ xLabel, XLabel := xLabel, YLabel := yLabel }
  if lib.NewScatter pts then
    pure (plot.Add [Plotter.scatter pts 2 (Color.rgba 0 0 255 255)])
  else
    throw (Panic.library "NewScatter")

/-! ## plotter.go: the heap, PlotHistogram -/

/-- Backing arrays of the `[]float64` slices, by address. -/
abbrev Heap := List (List F64)

/-- A `[]float64` slice value: the address of its backing array. -/
abbrev Slice := Nat

/-- Contents of the slice at address `a`. -/
def Heap.read (h : Heap) (a : Slice) : List F64 := h.getD a []

/-- Go `s[i] = v` for the slice `s` at address `a`. -/
def Heap.store (h : Heap) (a : Slice) (i : Nat) (v : F64) : Heap :=
  h.set a ((h.read a).set i v)

/-- Go `make([]float64, n)`: a fresh array of `n` zeros and its address. -/
def Heap.make (h : Heap) (n : Nat) : Heap × Slice :=
  (h ++ [List.replicate n F64.zero], h.length)

/-- Go `copy(dst, src)`: the first `min(len(dst), len(src))` elements of `src`
overwrite those of `dst`. -/
def Heap.copy (h : Heap) (dst src : Slice) : Heap :=
  h.set dst ((h.read src).take (h.read dst).length ++ (h.read dst).drop (h.read src).length)

/-- Outcome of a call that may write the heap: the heap it leaves, and its
result or the panic that stopped it. -/
structure Run (α : Type) where
  heap : Heap
  result : Except Panic α

/-- Go `PlotHistogram`. The loop `for i := range data` stores `0` over every
not-a-number element of the caller's slice; the histogram is then built from
that slice with 16 bins. -/
def PlotHistogram (lib : PlotLib) (h : Heap) (data : Slice) (label : String) : Run Plot :=
  let plot : Plot := { Plot.New with Title := "Distribution of " ++ label, XLabel := label }
  let h := (List.range (h.read data).length).foldl
    (fun h i => if ((h.read data).getD i F64.zero).IsNaN then h.store data i F64.zero else h) h
  if lib.NewHist (h.read data) 16 then
    ⟨h, .ok (plot.Add [Plotter.hist (h.read data) 16 (Color.rgba 100 150 200 255)])⟩
  else
    ⟨h, .error (Panic.library "NewHist")⟩

/-! ## plotter.go: PairPlot -/

/-- A gonum `vg.Point`. -/
structure Point where
  X : ℚ
  Y : ℚ
deriving DecidableEq

/-- A gonum `vg.Rectangle`. -/
structure Rectangle where
  Min : Point
  Max : Point
deriving DecidableEq

/-- The image `PairPlot` draws on: its size and, in drawing order, every plot
drawn with the rectangle it was drawn into. -/
structure Canvas where
  Width : ℚ
  Height : ℚ
  drawn : List (Plot × Rectangle)
deriving DecidableEq

/-- Go `plot.Draw(canvas)` for a canvas cut out of `dc` at `rect`. -/
def Canvas.Draw (dc : Canvas) (plot : Plot) (rect : Rectangle) : Canvas :=
  { dc with drawn := dc.drawn ++ [(plot, rect)] }

/-- A `for _, b := range bs` loop whose body may write the heap and may panic:
the body runs on each element in order, and a panic ends the loop. -/
def Run.loop {β σ : Type} (body : β → Heap → σ → Run σ) : List β → Heap → σ → Run σ
  | [], h, s => ⟨h, .ok s⟩
  | b :: bs, h, s =>
    match body b h s with
    | ⟨h1, .ok s1⟩ => Run.loop body bs h1 s1
    | ⟨h1, .error e⟩ => ⟨h1, .error e⟩

/-- The rectangle `PairPlot` draws cell `(row, col)` into. -/
def PairPlot.rect (gridSize : Nat) (tileSize : ℚ) (row col : Nat) : Rectangle :=
  let xStart : ℚ := (col : ℚ) * tileSize
  let yStart : ℚ := (((gridSize : Int) - (row : Int) - 1 : Int) : ℚ) * tileSize
  { Min := ⟨xStart, yStart⟩, Max := ⟨xStart + tileSize, yStart + tileSize⟩ }

/-- The plot `PairPlot` makes for cell `(row, col)`: a histogram of a copy of
`xCol` on the diagonal, a scatter of copies of `xCol` and `yCol` elsewhere. -/
def PairPlot.plot (lib : PlotLib) (labels : List String) (row : Nat) (yCol : Slice)
    (col : Nat) (xCol : Slice) (h : Heap) : Run Plot :=
  if row = col then
    let (h, data) := h.make (h.read xCol).length
    let h := h.copy data xCol
    match index labels col with
    | .error e => ⟨h, .error e⟩
    | .ok label => PlotHistogram lib h data label
  else
    let (h, xData) := h.make (h.read xCol).length
    let h := h.copy xData xCol
    let (h, yData) := h.make (h.read yCol).length
    let h := h.copy yData yCol
    match index labels col with
    | .error e => ⟨h, .error e⟩
    | .ok xLabel =>
      match index labels row with
      | .error e => ⟨h, .error e⟩
      | .ok yLabel => ⟨h, PlotScatter lib (h.read xData) (h.read yData) xLabel yLabel⟩

/-- Body of the inner loop of `PairPlot`: make the plot of the cell and draw it. -/
def PairPlot.cell (lib : PlotLib) (labels : List String) (gridSize : Nat) (tileSize : ℚ)
    (row : Nat) (yCol : Slice) (c : Nat × Slice) (h : Heap) (dc : Canvas) : Run Canvas :=
  match PairPlot.plot lib labels row yCol c.1 c.2 h with
  | ⟨h, .error e⟩ => ⟨h, .error e⟩
  | ⟨h, .ok plot⟩ => ⟨h, .ok (dc.Draw plot (PairPlot.rect gridSize tileSize row c.1))⟩

/-- Go `vgimg.New(w, h)`: a panic (`w and h must both be > 0`) when a size is
not positive, or when the library cannot make an image of that size; an empty
canvas of that size otherwise. -/
def vgimg.New (lib : PlotLib) (w h : ℚ) : Except Panic Canvas :=
  if w ≤ 0 ∨ h ≤ 0 then
    .error (Panic.library "vgimg.New")
  else if lib.New w h then
    .ok ⟨w, h, []⟩
  else
    .error (Panic.library "vgimg.New")

/-- Go `PairPlot`, up to the last `plot.Draw`: `data` is the slice of column
slices; the result is the canvas before it is encoded and written to the file.
The canvas is made first, so with no label (a canvas of size zero) `PairPlot`
panics before it draws anything. -/
def PairPlot (lib : PlotLib) (h : Heap) (data : List Slice) (labels : List String) :
    Run Canvas :=
  let gridSize := labels.length
  let tileSize := 4 * lib.Inch
  let imgWidth := tileSize * (gridSize : ℚ)
  let imgHeight := tileSize * (gridSize : ℚ)
  match vgimg.New lib imgWidth imgHeight with
  | .error e => ⟨h, .error e⟩
  | .ok dc =>
    Run.loop
      (fun (r : Nat × Slice) h dc =>
        Run.loop (PairPlot.cell lib labels gridSize tileSize r.1 r.2) data.enum h dc)
      data.enum h dc

/-! ## plotter.go: PlotModel, PlotMetrics -/

/-- Body of the loop of `PlotModel` at index `i`; the state is `(points, linePoints)`. -/
def PlotModel.body (xData yData weights : List F64) (bias : F64)
    (s : List XY × List XY) (i : Nat) : Except Panic (List XY × List XY) := do
  let x ← index xData i
  let points := setX s.1 i x
  let y ← index yData i
  let points := setY points i y
  let linePoints := setX s.2 i x
  let w ← index weights 0
  let linePoints := setY linePoints i (F64.add (F64.mul w x) bias)
  pure (points, linePoints)

/-- Go `PlotModel`, up to `plot.Add(scatter, line)`: the plot before it is saved. -/
def PlotModel (lib : PlotLib) (xData yData weights : List F64) (bias : F64)
    (feature label : String) : Except Panic Plot := do
  if xData.length ≠ yData.length then
    throw (Panic.fatal "Mismatch between feature and label lengths")
  let linePoints := List.replicate xData.length XY.zero
  let points := List.replicate xData.length XY.zero
  let (points, linePoints) ←
    (List.range xData.length).foldlM (PlotModel.body xData yData weights bias)
      (points, linePoints)
  let plot : Plot := { Plot.New with Title := "Model Plot", XLabel := feature, YLabel := label }
  if ¬ lib.NewScatter points then
    throw (Panic.library "NewScatter")
  if ¬ lib.NewLine linePoints then
    throw (Panic.library "NewLine")
  pure (plot.Add [Plotter.scatter points 3 Color.default, Plotter.line linePoints 2 (Color.palette 1)])

/-- Go `colorMap[i]` in `PlotMetrics`: red, green, blue for 0, 1, 2 and the nil
colour for any other key. -/
def colorMap (i : Nat) : Color :=
  match i with
  | 0 => Color.rgba 255 0 0 255
  | 1 => Color.rgba 0 255 0 255
  | 2 => Color.rgba 0 0 255 255
  | _ => Color.none

/-- Body of the loop of `addLine` at index `i`. -/
def addLine.body (xData yData : List F64) (points : List XY) (i : Nat) :
    Except Panic (List XY) := do
  let x ← index xData i
  let points := setX points i x
  let y ← index yData i
  let points := setY points i y
  pure points

/-- Go `make([]T, len)` for elements of `elemSize` bytes. It fails (the panic
`makeslice: len out of range`, or the fatal error `out of memory`) when `len` is
negative or the array would take more than `maxAlloc` bytes, the bytes the
runtime can allocate (at most `runtime.maxAlloc`, `2^48` on 64-bit platforms);
otherwise it returns a slice of that length. -/
def makeslice (maxAlloc elemSize : Nat) (len : Int) : Except Panic Nat :=
  if len < 0 ∨ (maxAlloc : Int) < (elemSize : Int) * len then
    .error Panic.makeslice
  else
    .ok len.toNat

/-- The points the closure `addLine` of `PlotMetrics` builds:
`points := make(plotter.XYs, len(xData))` (16 bytes per point) followed by the
loop `for i := range points`. -/
def addLine.points (maxAlloc : Nat) (xData yData : List F64) : Except Panic (List XY) := do
  let n ← makeslice maxAlloc 16 xData.length
  (List.range n).foldlM (addLine.body xData yData) (List.replicate n XY.zero)

/-- The closure `addLine` of `PlotMetrics`. -/
def addLine (maxAlloc : Nat) (lib : PlotLib) (p : Plot) (name : String)
    (xData yData : List F64) (lineColor : Color) : Except Panic Plot := do
  let points ← addLine.points maxAlloc xData yData
  if ¬ lib.NewLine points then
    throw (Panic.library "NewLine")
  let p := p.Add [Plotter.line points 2 lineColor]
  pure { p with Legend := p.Legend ++ [name] }

/-- Body of the loop `for metricName, metricValues := range metricsMap` of
`PlotMetrics`; the state is the plot and the counter `i`. -/
def PlotMetrics.body (maxAlloc : Nat) (lib : PlotLib) (epochs : List F64) (s : Plot × Nat)
    (m : String × List F64) : Except Panic (Plot × Nat) := do
  let pl ← addLine maxAlloc lib s.1 m.1 epochs m.2 (colorMap s.2)
  pure (pl, s.2 + 1)

/-- Go `PlotMetrics`, up to the end of the loop over the map: the plot before it
is saved. `metricsMap` lists the entries of the Go map in the order the
`range` loop visits them; `epochs := make([]float64, numEpochs)` takes 8 bytes
per element. -/
def PlotMetrics (maxAlloc : Nat) (lib : PlotLib) (numEpochs : Int)
    (metricsMap : List (String × List F64)) : Except Panic Plot := do
  let n ← makeslice maxAlloc 8 numEpochs
  let epochs : List F64 := (List.range n).foldl
    (fun epochs i => epochs.set i (F64.num ((i : ℚ) + 1)))
    (List.replicate n F64.zero)
  let pl : Plot :=
    { Plot.New with
      Title := "Final Moving Average Loss Across Epochs", XLabel := "Epochs", YLabel := "Loss" }
  let (pl, _) ← metricsMap.foldlM (PlotMetrics.body maxAlloc lib epochs) (pl, 0)
  pure pl

/-! ## Closed forms used to state the results -/

/-- The value plotted for `v`: `0` for not-a-number, `v` itself otherwise. -/
def nanToZero (v : F64) : F64 := if v.IsNaN then F64.zero else v

/-- The scatter points of two series: point `i` pairs the plotted values of
`xs[i]` and `ys[i]`. -/
def scatterPoints (xs ys : List F64) : List XY :=
  List.zipWith (fun x y => (⟨nanToZero x, nanToZero y⟩ : XY)) xs ys

/-- A slice of `n` points whose first `k` entries have been stored (`g i` at
index `i`) and whose other entries are still the zero point. -/
def filled (n k : Nat) (g : Nat → XY) : List XY :=
  (List.range n).map (fun t => if t < k then g t else XY.zero)

/-- The plot `PlotHistogram` returns for a slice holding `values`. -/
def histogramPlot (values : List F64) (label : String) : Plot :=
  { Title := "Distribution of " ++ label
    XLabel := label
    YLabel := ""
    plotters := [Plotter.hist (values.map nanToZero) 16 (Color.rgba 100 150 200 255)]
    Legend := [] }

/-- The plot `PlotScatter` returns for two series of the same length. -/
def scatterPlot (xs ys : List F64) (xLabel yLabel : String) : Plot :=
  { Title := yLabel ++ " vs " ++ xLabel
    XLabel := xLabel
    YLabel := yLabel
    plotters := [Plotter.scatter (scatterPoints xs ys) 2 (Color.rgba 0 0 255 255)]
    Legend := [] }

/-- A plot library that accepts exactly the data free of not-a-number values
(and a positive number of bins) and makes a canvas of any positive size, with
`vg.Inch = 72` points. -/
def gonumFinite : PlotLib :=
  { NewScatter := fun pts => pts.all (fun p => !p.X.IsNaN && !p.Y.IsNaN)
    NewLine := fun pts => pts.all (fun p => !p.X.IsNaN && !p.Y.IsNaN)
    NewHist := fun vs n => decide (0 < n) && vs.all (fun v => !v.IsNaN)
    New := fun _ _ => true
    Inch := 72 }

/-- The plot `PairPlot` draws in cell `(row, col)`, from the contents of the
heap before the call. -/
def PairPlot.cellPlot (h : Heap) (labels : List String) (row : Nat) (yCol : Slice)
    (col : Nat) (xCol : Slice) : Plot :=
  if row = col then
    histogramPlot (h.read xCol) (labels.getD col "")
  else
    scatterPlot (h.read xCol) (h.read yCol) (labels.getD col "") (labels.getD row "")

/-- What `PairPlot` draws in row `r`, in drawing order. -/
def PairPlot.rowDraws (lib : PlotLib) (h : Heap) (data : List Slice) (labels : List String)
    (r : Nat × Slice) : List (Plot × Rectangle) :=
  data.enum.map (fun c =>
    (PairPlot.cellPlot h labels r.1 r.2 c.1 c.2,
     PairPlot.rect labels.length (4 * lib.Inch) r.1 c.1))

/-- Go `plot.Draw` for a list of plots with their rectangles, in order. -/
def Canvas.DrawAll (dc : Canvas) (ds : List (Plot × Rectangle)) : Canvas :=
  { dc with drawn := dc.drawn ++ ds }

/-- The scatter points of `PlotModel`: point `i` is `(xs[i], ys[i])`. -/
def modelPoints (xs ys : List F64) : List XY :=
  List.zipWith (fun x y => (⟨x, y⟩ : XY)) xs ys

/-- The line points of `PlotModel`: point `i` is `(xs[i], w * xs[i] + bias)`. -/
def modelLine (xs : List F64) (w bias : F64) : List XY :=
  xs.map (fun x => (⟨x, F64.add (F64.mul w x) bias⟩ : XY))

/-- The slice `epochs` of `PlotMetrics`: the epoch numbers `1 .. n`. -/
def epochsOf (n : Nat) : List F64 :=
  (List.range n).map (fun (i : Nat) => F64.num ((i : ℚ) + 1))

/-- The points of the line of one series over `n` epochs: point `i` is
`(i + 1, values[i])`. -/
def epochPoints (n : Nat) (values : List F64) : List XY :=
  (List.range n).map
    (fun (i : Nat) => (⟨F64.num ((i : ℚ) + 1), values.getD i F64.zero⟩ : XY))

/-- The plot `PlotMetrics` builds over `n` epochs: one line per series, in the
order the map is visited, each with its name in the legend. -/
def metricsPlot (n : Nat) (metricsMap : List (String × List F64)) : Plot :=
  { Title := "Final Moving Average Loss Across Epochs"
    XLabel := "Epochs"
    YLabel := "Loss"
    plotters := metricsMap.enum.map
      (fun im => Plotter.line (epochPoints n im.2.2) 2 (colorMap im.1))
    Legend := metricsMap.map Prod.fst }

/-- The point `PlotScatter` stores at index `i`. -/
def PlotScatter.point (xData yData : List F64) (i : Nat) : XY :=
  ⟨nanToZero (xData.getD i F64.zero), nanToZero (yData.getD i F64.zero)⟩

/-- The slice as the loop of `PlotHistogram` has it after `k` turns. -/
def histUpTo (v : List F64) (k : Nat) : List F64 :=
  (List.range v.length).map
    (fun t => if t < k then nanToZero (v.getD t F64.zero) else v.getD t F64.zero)

/-! ## Sample inputs -/

/-- A table of two columns, `B = 2 * A`. -/
def tableAB : DataFrame :=
  ⟨[⟨"A", [F64.num 1, F64.num 2, F64.num 3]⟩, ⟨"B", [F64.num 2, F64.num 4, F64.num 6]⟩], 3,
    by simp⟩

/-- A table whose first column is constant (zero variance). -/
def tableConst : DataFrame :=
  ⟨[⟨"K", [F64.num 5, F64.num 5, F64.num 5]⟩, ⟨"V", [F64.num 1, F64.num 2, F64.nan]⟩], 3,
    by simp⟩

/-- A heap holding a table of two columns of two values, one of them
not-a-number. -/
def heapNaN : Heap := [[F64.nan, F64.num 1], [F64.num 3, F64.num 4]]

/-- A heap holding two columns of different lengths. -/
def heapRagged : Heap := [[F64.num 1, F64.num 2], [F64.num 1]]

/-- Go `runtime.maxAlloc` on a 64-bit platform. -/
def maxAlloc64 : Nat := 2 ^ 48

/-- Two series of two values each. -/
def metricsFull : List (String × List F64) :=
  [("loss", [F64.num 1, F64.num 2]), ("mse", [F64.num 3, F64.num 4])]

/-- Two series, the second one value short of two epochs. -/
def metricsShort : List (String × List F64) :=
  [("loss", [F64.num 1, F64.num 2]), ("mse", [F64.num 3])]

/-! ## Generic facts about index loops that store into a slice -/

/-- Storing `g j` at every index `j` of a list of indices: position `k` holds
`g k` when `k` was visited and is in range, and its old value otherwise. -/
theorem foldl_set_getElem? {α : Type} (g : Nat → α) (js : List Nat) (r : List α) (k : Nat) :
    (js.foldl (fun r j => r.set j (g j)) r)[k]? =
      if k ∈ js then r[k]?.map (fun _ => g k) else r[k]? := by
  induction js generalizing r with
  | nil => simp
  | cons j js ih =>
    simp only [List.foldl_cons, ih, List.mem_cons]
    by_cases hk : k = j
    · subst hk
      by_cases hlt : k < r.length
      · simp [List.getElem?_set, hlt, List.getElem?_eq_getElem hlt]
      · have hn : r[k]? = none := List.getElem?_eq_none (by omega)
        simp [List.getElem?_set, hlt, hn]
    · have hne : j ≠ k := fun h => hk h.symm
      simp [hk, List.getElem?_set, hne]

/-- Filling a slice of length `n` at every index `0 .. n-1`. -/
theorem foldl_set_range {α : Type} (g : Nat → α) (n : Nat) (r : List α) (hr : r.length = n) :
    ((List.range n).foldl (fun r j => r.set j (g j)) r) = (List.range n).map g := by
  apply List.ext_getElem?
  intro k
  rw [foldl_set_getElem?]
  by_cases hk : k < n
  · have hk2 : k < r.length := by omega
    simp [hk, List.getElem?_eq_getElem hk2]
  · have hn : r[k]? = none := List.getElem?_eq_none (by omega)
    have hk2 : (List.range n)[k]? = none :=
      List.getElem?_eq_none (by simp only [List.length_range]; omega)
    simp [hk, hn, hk2]

/-! ## The correlation matrix in closed form -/

/-- Stores into row `i` of a matrix are stores into that row alone. -/
theorem setCell_foldl (g : Nat → F64) (i : Nat) (js : List Nat) (m : CorrelationMatrix) :
    js.foldl (fun m j => setCell m i j (g j)) m =
      m.set i (js.foldl (fun r j => r.set j (g j)) (m.getD i [])) := by
  induction js generalizing m with
  | nil =>
    simp only [List.foldl_nil]
    apply List.ext_getElem?
    intro k
    by_cases hk : i = k
    · subst hk
      by_cases hlt : i < m.length
      · simp [List.getElem?_set, hlt, List.getD_eq_getElem?_getD, List.getElem?_eq_getElem hlt]
      · have hn : m[i]? = none := List.getElem?_eq_none (by omega)
        simp [List.getElem?_set, hlt, hn]
    · simp [List.getElem?_set, hk]
  | cons j js ih =>
    rw [List.foldl_cons, ih]
    unfold setCell
    by_cases hlt : i < m.length
    · simp [List.getD_eq_getElem?_getD, List.getElem?_set, hlt]
    · have h1 : ∀ r, m.set i r = m := fun r => List.set_eq_of_length_le (by omega)
      simp [h1]

/-- The inner loop of `GetCorrelationMatrix`, on a fresh row of zeros. -/
theorem row_loop (g : Nat → F64) (C i : Nat) :
    (List.range' i (C - i)).foldl (fun r j => r.set j (g j)) (List.replicate C F64.zero) =
      (List.range C).map (fun j => if j < i then F64.zero else g j) := by
  apply List.ext_getElem?
  intro k
  rw [foldl_set_getElem?]
  by_cases hk : k < C
  · by_cases hki : k < i
    · have hm : k ∉ List.range' i (C - i) := by
        rw [List.mem_range'_1]; omega
      simp [hm, hk, hki, List.getElem?_replicate, List.getElem?_range hk]
    · have hm : k ∈ List.range' i (C - i) := by
        rw [List.mem_range'_1]; omega
      simp [hm, hk, hki, List.getElem?_replicate, List.getElem?_range hk]
  · have h1 : (List.replicate C F64.zero)[k]? = none :=
      List.getElem?_eq_none (by simp only [List.length_replicate]; omega)
    have h2 : (List.range C)[k]? = none :=
      List.getElem?_eq_none (by simp only [List.length_range]; omega)
    simp [h1, h2]

/-- `GetCorrelationMatrix` in closed form: row `i` is `rowOf i`. -/
theorem GetCorrelationMatrix_eq (Correlation : List F64 → List F64 → F64) (df : DataFrame) :
    GetCorrelationMatrix Correlation df =
      (List.range df.Names.length).map (rowOf Correlation df) := by
  unfold GetCorrelationMatrix
  have hinner : ∀ (i : Nat) (m : CorrelationMatrix),
      (List.range' i (df.Names.length - i)).foldl
        (fun corrMatrix j =>
          if i = j then setCell corrMatrix i j F64.one
          else setCell corrMatrix i j
            (Correlation (df.Col (df.Names.getD i "")) (df.Col (df.Names.getD j ""))))
        (m.set i (List.replicate df.Names.length F64.zero)) =
      m.set i (rowOf Correlation df i) := by
    intro i m
    have hstep : (fun (corrMatrix : CorrelationMatrix) j =>
          if i = j then setCell corrMatrix i j F64.one
          else setCell corrMatrix i j
            (Correlation (df.Col (df.Names.getD i "")) (df.Col (df.Names.getD j "")))) =
        (fun corrMatrix j => setCell corrMatrix i j (cellValue Correlation df i j)) := by
      funext corrMatrix j
      unfold cellValue
      split <;> rfl
    rw [hstep, setCell_foldl]
    by_cases hlt : i < m.length
    · simp [List.getD_eq_getElem?_getD, List.getElem?_set, hlt, row_loop, rowOf]
    · have h1 : ∀ r, m.set i r = m := fun r => List.set_eq_of_length_le (by omega)
      simp [h1]
  simp only [hinner]
  exact foldl_set_range (rowOf Correlation df) df.Names.length _ (by simp)

/-- Number of names of a table: its number of columns. -/
theorem Names_length (df : DataFrame) : df.Names.length = df.columns.length := by
  simp [DataFrame.Names]

/-- Entry `(i, j)` of the matrix `GetCorrelationMatrix` returns, for indices in range. -/
theorem GetCorrelationMatrix_entry (Correlation : List F64 → List F64 → F64) (df : DataFrame)
    (i j : Nat) (hi : i < df.columns.length) (hj : j < df.columns.length) :
    (GetCorrelationMatrix Correlation df).entry i j =
      some (if j < i then F64.zero else cellValue Correlation df i j) := by
  have hi2 : i < df.Names.length := by rw [Names_length]; exact hi
  have hj2 : j < df.Names.length := by rw [Names_length]; exact hj
  simp [CorrelationMatrix.entry, GetCorrelationMatrix_eq, rowOf, List.getElem?_range, hi2, hj2]

/-! ## Claims on `GetCorrelationMatrix` -/

/-- C1: the matrix `GetCorrelationMatrix` returns is not mirrored. For columns
`i < j` the entry above the diagonal, `M[i][j]`, is the correlation of the two
columns, and the entry below the diagonal, `M[j][i]`, is the zero the row was
created with. -/
theorem GetCorrelationMatrix_lower_triangle_zero (Correlation : List F64 → List F64 → F64)
    (df : DataFrame) (i j : Nat) (hij : i < j) (hj : j < df.columns.length) :
    (GetCorrelationMatrix Correlation df).entry j i = some F64.zero ∧
    (GetCorrelationMatrix Correlation df).entry i j =
      some (Correlation (df.Col (df.Names.getD i "")) (df.Col (df.Names.getD j ""))) := by
  have hi : i < df.columns.length := by omega
  have hne : i ≠ j := by omega
  have hnlt : ¬ j < i := by omega
  constructor
  · rw [GetCorrelationMatrix_entry Correlation df j i hj hi]
    simp [hij]
  · rw [GetCorrelationMatrix_entry Correlation df i j hi hj]
    simp [hnlt, cellValue, hne]

/-- C1, at the table `A = [1,2,3]`, `B = [2,4,6]` with a correlation of `1.0`:
`M[1][0]` is `0` and `M[0][1]` is `1`, and Go `==` tells them apart. -/
theorem GetCorrelationMatrix_lower_triangle_zero_witness :
    ((0 : Nat) < 1 ∧ 1 < tableAB.columns.length) ∧
    ((GetCorrelationMatrix (fun _ _ => F64.one) tableAB).entry 1 0 = some F64.zero ∧
     (GetCorrelationMatrix (fun _ _ => F64.one) tableAB).entry 0 1 = some F64.one) ∧
    F64.eq F64.one F64.zero = false :=
  ⟨⟨by decide, by decide⟩,
   GetCorrelationMatrix_lower_triangle_zero (fun _ _ => F64.one) tableAB 0 1 (by decide)
     (by decide),
   by simp [F64.eq, F64.one, F64.zero]⟩

/-- C2: for every table with `C` columns, `GetCorrelationMatrix` returns `C`
rows of length `C` each, and every diagonal entry `M[i][i]` is exactly `1.0`,
whatever the values of the column are. -/
theorem GetCorrelationMatrix_square_diag_one (Correlation : List F64 → List F64 → F64)
    (df : DataFrame) :
    (GetCorrelationMatrix Correlation df).length = df.columns.length ∧
    (∀ row ∈ GetCorrelationMatrix Correlation df, row.length = df.columns.length) ∧
    (∀ i, i < df.columns.length →
      (GetCorrelationMatrix Correlation df).entry i i = some F64.one) := by
  refine ⟨?_, ?_, ?_⟩
  · simp [GetCorrelationMatrix_eq, Names_length]
  · intro row hrow
    rw [GetCorrelationMatrix_eq] at hrow
    obtain ⟨i, _, rfl⟩ := List.mem_map.mp hrow
    simp [rowOf, Names_length]
  · intro i hi
    rw [GetCorrelationMatrix_entry Correlation df i i hi hi]
    simp [cellValue]

/-- C2, at a table with a constant column and a correlation that is undefined
everywhere: the diagonal entry of the constant column is `1.0`. -/
theorem GetCorrelationMatrix_square_diag_one_witness :
    (0 : Nat) < tableConst.columns.length ∧
    (GetCorrelationMatrix (fun _ _ => F64.nan) tableConst).entry 0 0 = some F64.one :=
  ⟨by decide,
   (GetCorrelationMatrix_square_diag_one (fun _ _ => F64.nan) tableConst).2.2 0 (by decide)⟩

/-! ## Index loops that may panic -/

/-- One more turn of a `for i := 0; i < n; i++` loop. -/
theorem foldlM_range_succ {σ : Type} (body : σ → Nat → Except Panic σ) (init : σ) (n : Nat) :
    (List.range (n + 1)).foldlM body init =
      (List.range n).foldlM body init >>= fun s => body s n := by
  rw [List.range_succ, List.foldlM_append]
  simp

/-- A loop none of whose turns panics: `inv i` is the state before turn `i`. -/
theorem foldlM_range_ok {σ : Type} (body : σ → Nat → Except Panic σ) (inv : Nat → σ) (n : Nat)
    (hstep : ∀ i, i < n → body (inv i) i = .ok (inv (i + 1))) :
    (List.range n).foldlM body (inv 0) = .ok (inv n) := by
  induction n with
  | zero => rfl
  | succ n ih =>
    rw [foldlM_range_succ, ih (fun i hi => hstep i (by omega))]
    exact hstep n (by omega)

/-- A loop whose turn `k` panics, the turns before it having run normally. -/
theorem foldlM_range_error {σ : Type} (body : σ → Nat → Except Panic σ) (inv : Nat → σ)
    (n k : Nat) (e : Panic) (hk : k < n)
    (hstep : ∀ i, i < k → body (inv i) i = .ok (inv (i + 1)))
    (herr : body (inv k) k = .error e) :
    (List.range n).foldlM body (inv 0) = .error e := by
  induction n with
  | zero => omega
  | succ n ih =>
    rw [foldlM_range_succ]
    by_cases hkn : k = n
    · subst hkn
      rw [foldlM_range_ok body inv k hstep]
      exact herr
    · rw [ih (by omega)]
      rfl

/-- Go `xs[i]` for an index in range. -/
theorem index_ok {α : Type} (xs : List α) (i : Nat) (d : α) (h : i < xs.length) :
    index xs i = .ok (xs.getD i d) := by
  simp [index, List.get?_eq_getElem?, List.getElem?_eq_getElem h, List.getD_eq_getElem?_getD]

/-- Go `xs[i]` for an index out of range. -/
theorem index_error {α : Type} (xs : List α) (i : Nat) (h : xs.length ≤ i) :
    index xs i = .error (.indexOutOfRange i xs.length) := by
  have hn : xs[i]? = none := List.getElem?_eq_none h
  simp [index, List.get?_eq_getElem?, hn]

/-- Storing at index `k` of a slice given by its entries. -/
theorem map_range_set {α : Type} (f : Nat → α) (n k : Nat) (x : α) :
    ((List.range n).map f).set k x = (List.range n).map (fun i => if i = k then x else f i) := by
  apply List.ext_getElem?
  intro t
  by_cases ht : t < n
  · by_cases htk : k = t
    · subst htk
      simp [List.getElem?_set, ht, List.getElem?_range ht]
    · have htk2 : ¬ t = k := fun h => htk h.symm
      simp [List.getElem?_set, htk, htk2, List.getElem?_range ht]
  · have h2 : (List.range n)[t]? = none :=
      List.getElem?_eq_none (by simp only [List.length_range]; omega)
    by_cases htk : k = t
    · subst htk
      simp [List.getElem?_set, ht, h2]
    · simp [List.getElem?_set, htk, h2]

/-- A fresh slice of `n` zero values, by its entries. -/
theorem replicate_eq_map_range {α : Type} (n : Nat) (z : α) :
    List.replicate n z = (List.range n).map (fun _ => z) := by
  apply List.ext_getElem?
  intro t
  by_cases ht : t < n
  · simp [List.getElem?_replicate, ht, List.getElem?_range ht]
  · have h2 : (List.range n)[t]? = none :=
      List.getElem?_eq_none (by simp only [List.length_range]; omega)
    simp [List.getElem?_replicate, ht, h2]

/-- A slice is the list of its entries. -/
theorem map_range_getD {α : Type} (xs : List α) (d : α) :
    (List.range xs.length).map (fun i => xs.getD i d) = xs := by
  apply List.ext_getElem?
  intro t
  by_cases ht : t < xs.length
  · simp [List.getElem?_range ht, List.getD_eq_getElem?_getD, List.getElem?_eq_getElem ht]
  · have h2 : (List.range xs.length)[t]? = none :=
      List.getElem?_eq_none (by simp only [List.length_range]; omega)
    have h3 : xs[t]? = none := List.getElem?_eq_none (by omega)
    simp [h2, h3]

/-- Pairing two series entry by entry, the second at least as long as the first. -/
theorem map_range_zipWith {β : Type} (f : F64 → F64 → β) (xs ys : List F64) (d : F64)
    (h : xs.length ≤ ys.length) :
    (List.range xs.length).map (fun i => f (xs.getD i d) (ys.getD i d)) =
      List.zipWith f xs ys := by
  apply List.ext_getElem?
  intro t
  by_cases ht : t < xs.length
  · have ht2 : t < ys.length := by omega
    simp [List.getElem?_range ht, List.getD_eq_getElem?_getD, List.getElem?_eq_getElem ht,
      List.getElem?_eq_getElem ht2, List.getElem?_zipWith]
  · have h2 : (List.range xs.length)[t]? = none :=
      List.getElem?_eq_none (by simp only [List.length_range]; omega)
    have h3 : xs[t]? = none := List.getElem?_eq_none (by omega)
    simp [h2, h3, List.getElem?_zipWith]

/-- The slice `make` returns has nothing stored yet. -/
theorem filled_zero (n : Nat) (g : Nat → XY) : filled n 0 g = List.replicate n XY.zero := by
  rw [replicate_eq_map_range]
  simp [filled]

/-- Once every index has been visited, the slice holds `g i` at every index. -/
theorem filled_all (n : Nat) (g : Nat → XY) : filled n n g = (List.range n).map g := by
  unfold filled
  apply List.map_congr_left
  intro t ht
  simp [List.mem_range.mp ht]

/-- Storing `X` then `Y` at index `k` of a slice filled up to `k`. -/
theorem setY_setX_filled (n k : Nat) (g : Nat → XY) (a b : F64) (hk : k < n)
    (hg : g k = ⟨a, b⟩) :
    setY (setX (filled n k g) k a) k b = filled n (k + 1) g := by
  have h1 : (filled n k g).getD k XY.zero = XY.zero := by
    simp [filled, List.getD_eq_getElem?_getD, List.getElem?_range hk]
  have hlen : k < (filled n k g).length := by simp [filled, hk]
  unfold setX setY
  rw [h1]
  have h2 : ((filled n k g).set k { XY.zero with X := a }).getD k XY.zero =
      { XY.zero with X := a } := by
    simp [List.getD_eq_getElem?_getD, List.getElem?_set, hlen]
  rw [h2, List.set_set]
  unfold filled
  rw [map_range_set]
  apply List.map_congr_left
  intro t _
  by_cases htk : t = k
  · subst htk
    simp [hg, XY.zero]
  · have h3 : (t < k + 1) = (t < k) := by
      apply propext; constructor <;> intro h <;> omega
    simp [htk, h3]

/-- A turn of the loop of `PlotScatter` with both indices in range. -/
theorem PlotScatter_body_ok (xData yData : List F64) (i : Nat)
    (hx : i < xData.length) (hy : i < yData.length) :
    PlotScatter.body xData yData (filled xData.length i (PlotScatter.point xData yData)) i =
      .ok (filled xData.length (i + 1) (PlotScatter.point xData yData)) := by
  have e : ∀ (pts : List XY) (v : F64) (f : List XY → Nat → F64 → List XY),
      (if v.IsNaN = true then f pts i F64.zero else f pts i v) = f pts i (nanToZero v) := by
    intro pts v f
    unfold nanToZero
    split <;> rfl
  simp only [PlotScatter.body, index_ok xData i F64.zero hx, index_ok yData i F64.zero hy,
    bind, Except.bind, pure, Except.pure, e]
  rw [setY_setX_filled _ _ _ _ _ hx rfl]

/-- A turn of the loop of `PlotScatter` past the end of `yData`. -/
theorem PlotScatter_body_error (xData yData : List F64) (pts : List XY) (i : Nat)
    (hx : i < xData.length) (hy : yData.length ≤ i) :
    PlotScatter.body xData yData pts i = .error (.indexOutOfRange i yData.length) := by
  simp only [PlotScatter.body, index_ok xData i F64.zero hx, index_error yData i hy,
    bind, Except.bind]

/-- The points of `PlotScatter` when `yData` is at least as long as `xData`:
one point per element of `xData`. -/
theorem PlotScatter_points_ok (xData yData : List F64) (h : xData.length ≤ yData.length) :
    PlotScatter.points xData yData =
      .ok ((List.range xData.length).map (PlotScatter.point xData yData)) := by
  unfold PlotScatter.points
  rw [← filled_zero xData.length (PlotScatter.point xData yData), ← filled_all]
  exact foldlM_range_ok (PlotScatter.body xData yData)
    (fun i => filled xData.length i (PlotScatter.point xData yData)) xData.length
    (fun i hi => PlotScatter_body_ok xData yData i hi (by omega))

/-- The points of `PlotScatter` in closed form, when `yData` is at least as long
as `xData`. -/
theorem PlotScatter_points_eq (xData yData : List F64) (h : xData.length ≤ yData.length) :
    PlotScatter.points xData yData = .ok (scatterPoints xData yData) := by
  rw [PlotScatter_points_ok xData yData h]
  unfold scatterPoints PlotScatter.point
  rw [map_range_zipWith (fun x y => (⟨nanToZero x, nanToZero y⟩ : XY)) xData yData F64.zero h]

/-- The loop of `PlotScatter` panics when `yData` is shorter than `xData`. -/
theorem PlotScatter_points_error (xData yData : List F64) (h : yData.length < xData.length) :
    PlotScatter.points xData yData = .error (.indexOutOfRange yData.length yData.length) := by
  unfold PlotScatter.points
  rw [← filled_zero xData.length (PlotScatter.point xData yData)]
  exact foldlM_range_error (PlotScatter.body xData yData)
    (fun i => filled xData.length i (PlotScatter.point xData yData)) xData.length
    yData.length _ h
    (fun i hi => PlotScatter_body_ok xData yData i (by omega) hi)
    (PlotScatter_body_error xData yData _ yData.length h (by omega))

/-! ## The heap -/

/-- Reading the slice that was just stored. -/
theorem Heap_read_set_self (h : Heap) (a : Slice) (v : List F64) (ha : a < h.length) :
    Heap.read (h.set a v) a = v := by
  simp [Heap.read, List.getD_eq_getElem?_getD, List.getElem?_set, ha]

/-- Reading another slice than the one stored. -/
theorem Heap_read_set_ne (h : Heap) (a b : Slice) (v : List F64) (hab : a ≠ b) :
    Heap.read (h.set a v) b = h.read b := by
  simp [Heap.read, List.getD_eq_getElem?_getD, List.getElem?_set, hab]

/-- An allocation keeps the slices there were. -/
theorem Heap_read_append (h : Heap) (vs : List (List F64)) (a : Slice) (ha : a < h.length) :
    Heap.read (h ++ vs) a = h.read a := by
  simp [Heap.read, List.getD_eq_getElem?_getD, List.getElem?_append_left ha]

/-- The slice an allocation returns. -/
theorem Heap_read_append_new (h : Heap) (v : List F64) :
    Heap.read (h ++ [v]) h.length = v := by
  simp [Heap.read, List.getD_eq_getElem?_getD]

/-- Storing the value an index already holds changes nothing. -/
theorem set_getD_self {α : Type} (w : List α) (k : Nat) (d : α) :
    w.set k (w.getD k d) = w := by
  apply List.ext_getElem?
  intro t
  by_cases htk : k = t
  · subst htk
    by_cases hk : k < w.length
    · simp [List.getElem?_set, hk, List.getD_eq_getElem?_getD, List.getElem?_eq_getElem hk]
    · have hn : w[k]? = none := List.getElem?_eq_none (Nat.le_of_not_lt hk)
      simp [List.getElem?_set, hk, hn]
  · simp [List.getElem?_set, htk]

/-- Storing a slice over itself changes nothing. -/
theorem Heap_set_read_self (h : Heap) (a : Slice) : h.set a (h.read a) = h := by
  unfold Heap.read
  exact set_getD_self h a []

/-- Before its first turn the loop of `PlotHistogram` has changed nothing. -/
theorem histUpTo_zero (v : List F64) : histUpTo v 0 = v := by
  unfold histUpTo
  have e : (fun t => if t < 0 then nanToZero (v.getD t F64.zero) else v.getD t F64.zero) =
      (fun t => v.getD t F64.zero) := by
    funext t
    rw [if_neg (Nat.not_lt_zero t)]
  rw [e, map_range_getD]

/-- After its last turn the loop of `PlotHistogram` has replaced every
not-a-number element. -/
theorem histUpTo_length (v : List F64) : histUpTo v v.length = v.map nanToZero := by
  unfold histUpTo
  have e : (List.range v.length).map
        (fun t => if t < v.length then nanToZero (v.getD t F64.zero) else v.getD t F64.zero) =
      (List.range v.length).map (fun t => nanToZero (v.getD t F64.zero)) := by
    apply List.map_congr_left
    intro t ht
    rw [if_pos (List.mem_range.mp ht)]
  rw [e]
  conv_rhs => rw [← map_range_getD v F64.zero]
  rw [List.map_map]
  rfl

/-- One turn of the loop of `PlotHistogram` on the slice. -/
theorem histUpTo_succ (v : List F64) (k : Nat) (hk : k < v.length) :
    (histUpTo v k).set k (nanToZero (v.getD k F64.zero)) = histUpTo v (k + 1) := by
  unfold histUpTo
  rw [map_range_set]
  apply List.map_congr_left
  intro t _
  by_cases htk : t = k
  · subst htk
    rw [if_pos rfl, if_pos (Nat.lt_succ_self t)]
  · rw [if_neg htk]
    by_cases h3 : t < k
    · rw [if_pos h3, if_pos (by omega)]
    · rw [if_neg h3, if_neg (by omega)]

/-- The element the loop of `PlotHistogram` looks at in turn `k` is the original one. -/
theorem histUpTo_getD (v : List F64) (k : Nat) (hk : k < v.length) :
    (histUpTo v k).getD k F64.zero = v.getD k F64.zero := by
  unfold histUpTo
  rw [List.getD_eq_getElem?_getD, List.getElem?_map, List.getElem?_range hk]
  simp

/-- The loop of `PlotHistogram` after `k` turns. -/
theorem PlotHistogram_loop_upTo (h : Heap) (a : Slice) (ha : a < h.length) (k : Nat)
    (hk : k ≤ (h.read a).length) :
    (List.range k).foldl
      (fun h i => if ((Heap.read h a).getD i F64.zero).IsNaN then h.store a i F64.zero else h) h =
    h.set a (histUpTo (h.read a) k) := by
  induction k with
  | zero =>
    rw [histUpTo_zero, Heap_set_read_self]
    rfl
  | succ k ih =>
    rw [List.range_succ, List.foldl_append, ih (by omega)]
    have hk2 : k < (h.read a).length := by omega
    simp only [List.foldl_cons, List.foldl_nil, Heap_read_set_self h a _ ha,
      histUpTo_getD _ k hk2]
    rw [← histUpTo_succ _ k hk2]
    by_cases hnan : ((h.read a).getD k F64.zero).IsNaN = true
    · rw [if_pos hnan]
      unfold nanToZero
      rw [if_pos hnan]
      unfold Heap.store
      rw [Heap_read_set_self h a _ ha, List.set_set]
    · rw [if_neg hnan]
      unfold nanToZero
      rw [if_neg hnan, ← histUpTo_getD _ k hk2, set_getD_self]

/-- The loop of `PlotHistogram` in closed form: the caller's slice has every
not-a-number element replaced by zero. -/
theorem PlotHistogram_loop_eq (h : Heap) (a : Slice) :
    (List.range (h.read a).length).foldl
      (fun h i => if ((Heap.read h a).getD i F64.zero).IsNaN then h.store a i F64.zero else h) h =
    h.set a ((h.read a).map nanToZero) := by
  by_cases ha : a < h.length
  · rw [PlotHistogram_loop_upTo h a ha _ (le_refl _), histUpTo_length]
  · have hn : h[a]? = none := List.getElem?_eq_none (Nat.le_of_not_lt ha)
    have h0 : h.read a = [] := by
      simp [Heap.read, List.getD_eq_getElem?_getD, hn]
    rw [h0, List.set_eq_of_length_le (Nat.le_of_not_lt ha)]
    rfl

/-- What `PlotHistogram` does to the heap and what it returns. -/
theorem PlotHistogram_eq (lib : PlotLib) (h : Heap) (data : Slice) (label : String) :
    PlotHistogram lib h data label =
      if lib.NewHist ((h.read data).map nanToZero) 16 then
        ⟨h.set data ((h.read data).map nanToZero), .ok (histogramPlot (h.read data) label)⟩
      else
        ⟨h.set data ((h.read data).map nanToZero), .error (Panic.library "NewHist")⟩ := by
  have hread : Heap.read (h.set data ((h.read data).map nanToZero)) data =
      (h.read data).map nanToZero := by
    by_cases ha : data < h.length
    · exact Heap_read_set_self h data _ ha
    · have hn : h[data]? = none := List.getElem?_eq_none (Nat.le_of_not_lt ha)
      have h0 : h.read data = [] := by
        simp [Heap.read, List.getD_eq_getElem?_getD, hn]
      rw [List.set_eq_of_length_le (Nat.le_of_not_lt ha), h0]
      rfl
  unfold PlotHistogram
  simp only [PlotHistogram_loop_eq, hread]
  rfl

/-! ## Slices that exist before a call are kept by it -/

/-- A heap that extends `h0` reads the slices of `h0` as `h0` does. -/
theorem prefix_read (h0 h : Heap) (hp : h0 <+: h) (a : Slice) (ha : a < h0.length) :
    h.read a = h0.read a := by
  obtain ⟨t, rfl⟩ := hp
  exact Heap_read_append h0 t a ha

/-- A store into a slice allocated after `h0` keeps the slices of `h0`. -/
theorem prefix_set (h0 h : Heap) (hp : h0 <+: h) (a : Slice) (v : List F64)
    (ha : h0.length ≤ a) : h0 <+: h.set a v := by
  obtain ⟨t, rfl⟩ := hp
  rw [List.set_append_right a v ha]
  exact List.prefix_append _ _

/-- An allocation keeps the slices of `h0`. -/
theorem prefix_make (h0 h : Heap) (hp : h0 <+: h) (n : Nat) : h0 <+: (h.make n).1 :=
  List.IsPrefix.trans hp (List.prefix_append _ _)

/-- The address an allocation returns is a fresh one. -/
theorem make_snd (h : Heap) (n : Nat) : (h.make n).2 = h.length := rfl

/-- The heap after an allocation. -/
theorem make_fst (h : Heap) (n : Nat) : (h.make n).1 = h ++ [List.replicate n F64.zero] := rfl

/-- The heap `PlotHistogram` leaves. -/
theorem PlotHistogram_heap (lib : PlotLib) (h : Heap) (data : Slice) (label : String) :
    (PlotHistogram lib h data label).heap = h.set data ((h.read data).map nanToZero) := by
  rw [PlotHistogram_eq]
  split <;> rfl

/-- Making the plot of a cell keeps every slice that existed before `PairPlot`. -/
theorem PairPlot_plot_frame (lib : PlotLib) (labels : List String) (row : Nat) (yCol : Slice)
    (col : Nat) (xCol : Slice) (h0 h : Heap) (hp : h0 <+: h) :
    h0 <+: (PairPlot.plot lib labels row yCol col xCol h).heap := by
  have hl : h0.length ≤ h.length := hp.length_le
  unfold PairPlot.plot
  split
  · have h2 : h0 <+: (h.make (h.read xCol).length).1.copy h.length xCol :=
      prefix_set h0 _ (prefix_make h0 h hp _) _ _ hl
    simp only [make_snd]
    split
    · exact h2
    · rw [PlotHistogram_heap]
      exact prefix_set h0 _ h2 _ _ hl
  · have h2 : h0 <+: (h.make (h.read xCol).length).1.copy h.length xCol :=
      prefix_set h0 _ (prefix_make h0 h hp _) _ _ hl
    have hl2 : h0.length ≤ ((h.make (h.read xCol).length).1.copy h.length xCol).length :=
      h2.length_le
    have h4 : h0 <+: (((h.make (h.read xCol).length).1.copy h.length xCol).make
        (((h.make (h.read xCol).length).1.copy h.length xCol).read yCol).length).1.copy
        ((h.make (h.read xCol).length).1.copy h.length xCol).length yCol :=
      prefix_set h0 _ (prefix_make h0 _ h2 _) _ _ hl2
    simp only [make_snd]
    split
    · exact h4
    · split
      · exact h4
      · exact h4

/-- The heap a loop leaves satisfies what every turn of its body keeps. -/
theorem Run_loop_frame {β σ : Type} (P : Heap → Prop) (body : β → Heap → σ → Run σ)
    (hbody : ∀ b h s, P h → P (body b h s).heap) (bs : List β) :
    ∀ h s, P h → P (Run.loop body bs h s).heap := by
  induction bs with
  | nil => intro h s hP; exact hP
  | cons b bs ih =>
    intro h s hP
    have hb := hbody b h s hP
    unfold Run.loop
    split
    · next h1 s1 heq =>
      rw [heq] at hb
      exact ih h1 s1 hb
    · next h1 e heq =>
      rw [heq] at hb
      exact hb

/-- Every slice that exists before `PairPlot` is kept by it. -/
theorem PairPlot_frame (lib : PlotLib) (h : Heap) (data : List Slice) (labels : List String) :
    h <+: (PairPlot lib h data labels).heap := by
  unfold PairPlot
  simp only []
  split
  · exact List.prefix_refl h
  apply Run_loop_frame (fun h1 => h <+: h1)
  · intro r h1 dc hp
    apply Run_loop_frame (fun h2 => h <+: h2)
    · intro c h2 dc2 hp2
      have hc := PairPlot_plot_frame lib labels r.1 r.2 c.1 c.2 h h2 hp2
      unfold PairPlot.cell
      split
      · next h3 e heq => rw [heq] at hc; exact hc
      · next h3 pl heq => rw [heq] at hc; exact hc
    · exact hp
  · exact List.prefix_refl h

/-! ## What `PairPlot` draws -/

/-- `PlotScatter` on two series of the same length that the library accepts. -/
theorem PlotScatter_ok (lib : PlotLib) (xs ys : List F64) (xLabel yLabel : String)
    (hlen : xs.length ≤ ys.length) (hlib : lib.NewScatter (scatterPoints xs ys) = true) :
    PlotScatter lib xs ys xLabel yLabel = .ok (scatterPlot xs ys xLabel yLabel) := by
  unfold PlotScatter
  rw [PlotScatter_points_eq xs ys hlen]
  simp only [bind, Except.bind, hlib, if_true]
  rfl

/-- Go `make` followed by `copy` from a slice of the same length: a fresh copy. -/
theorem make_copy (h : Heap) (src : Slice) (hs : src < h.length) :
    (h.make (h.read src).length).1.copy h.length src = h ++ [h.read src] := by
  unfold Heap.copy
  rw [make_fst, Heap_read_append_new, Heap_read_append h _ src hs]
  rw [List.set_append_right _ _ (le_refl _)]
  simp

/-- The plot of a cell, when the two columns have the same length and the
library accepts their plotted values. -/
theorem PairPlot_plot_result (lib : PlotLib) (labels : List String) (row : Nat) (yCol : Slice)
    (col : Nat) (xCol : Slice) (h0 h : Heap) (hp : h0 <+: h)
    (hx : xCol < h0.length) (hy : yCol < h0.length)
    (hcol : col < labels.length) (hrow : row < labels.length)
    (hlen : (h0.read xCol).length = (h0.read yCol).length)
    (hH : lib.NewHist ((h0.read xCol).map nanToZero) 16 = true)
    (hS : lib.NewScatter (scatterPoints (h0.read xCol) (h0.read yCol)) = true) :
    (PairPlot.plot lib labels row yCol col xCol h).result =
      .ok (PairPlot.cellPlot h0 labels row yCol col xCol) := by
  have hl : h0.length ≤ h.length := hp.length_le
  have hx2 : xCol < h.length := Nat.lt_of_lt_of_le hx hl
  have hy2 : yCol < h.length := Nat.lt_of_lt_of_le hy hl
  have hrx : h.read xCol = h0.read xCol := prefix_read h0 h hp xCol hx
  have hry : h.read yCol = h0.read yCol := prefix_read h0 h hp yCol hy
  unfold PairPlot.plot PairPlot.cellPlot
  split
  · simp only [make_snd, make_copy h xCol hx2, index_ok labels col "" hcol]
    rw [PlotHistogram_eq, Heap_read_append_new, hrx, if_pos hH]
  · have hy3 : yCol < (h ++ [h.read xCol]).length := by
      rw [List.length_append]
      exact Nat.lt_of_lt_of_le hy2 (Nat.le_add_right _ _)
    have hr1 : Heap.read (h ++ [h.read xCol]) yCol = h.read yCol :=
      Heap_read_append h _ yCol hy2
    have hr2 : Heap.read (h ++ [h.read xCol] ++ [h.read yCol]) h.length = h.read xCol := by
      simp only [Heap.read, List.getD_eq_getElem?_getD, List.append_assoc]
      rw [List.getElem?_append_right (le_refl _)]
      simp
    have hr3 : Heap.read (h ++ [h.read xCol] ++ [h.read yCol]) (h ++ [h.read xCol]).length =
        h.read yCol := Heap_read_append_new _ _
    simp only [make_snd, make_copy h xCol hx2, index_ok labels col "" hcol,
      index_ok labels row "" hrow]
    have hmc := make_copy (h ++ [h.read xCol]) yCol hy3
    rw [hr1] at hmc
    rw [hr1, hmc, hr2, hr3, hrx, hry]
    exact PlotScatter_ok lib _ _ _ _ (le_of_eq hlen) hS

/-- A loop none of whose turns panics, whose turn on `b` takes the state `s`
to `upd b s` and keeps `P` on the heap. -/
theorem Run_loop_ok {β σ : Type} (P : Heap → Prop) (upd : β → σ → σ)
    (body : β → Heap → σ → Run σ) (bs : List β)
    (hbody : ∀ b, b ∈ bs → ∀ h s, P h →
      (body b h s).result = .ok (upd b s) ∧ P (body b h s).heap) :
    ∀ h s, P h →
      (Run.loop body bs h s).result = .ok (bs.foldl (fun s b => upd b s) s) ∧
      P (Run.loop body bs h s).heap := by
  induction bs with
  | nil => intro h s hP; exact ⟨rfl, hP⟩
  | cons b bs ih =>
    intro h s hP
    have hb := hbody b (List.mem_cons_self b bs) h s hP
    have ih2 := ih (fun b2 hb2 => hbody b2 (List.mem_cons_of_mem b hb2))
    unfold Run.loop
    split
    · next h1 s1 heq =>
      rw [heq] at hb
      have hs : s1 = upd b s := by
        have := hb.1
        simp only [Except.ok.injEq] at this
        exact this
      rw [List.foldl_cons, ← hs]
      exact ih2 h1 s1 hb.2
    · next h1 e heq =>
      rw [heq] at hb
      exact absurd hb.1 (by simp)

/-- Drawing the cells of a row one after the other. -/
theorem foldl_Draw {β : Type} (f : β → Plot × Rectangle) (cs : List β) (dc : Canvas) :
    cs.foldl (fun dc c => dc.Draw (f c).1 (f c).2) dc = dc.DrawAll (cs.map f) := by
  induction cs generalizing dc with
  | nil => simp [Canvas.DrawAll]
  | cons c cs ih =>
    rw [List.foldl_cons, ih]
    simp [Canvas.DrawAll, Canvas.Draw]

/-- Drawing the rows one after the other. -/
theorem foldl_DrawAll {β : Type} (g : β → List (Plot × Rectangle)) (rs : List β) (dc : Canvas) :
    rs.foldl (fun dc r => dc.DrawAll (g r)) dc = dc.DrawAll (rs.flatMap g) := by
  induction rs generalizing dc with
  | nil => simp [Canvas.DrawAll]
  | cons r rs ih =>
    rw [List.foldl_cons, ih]
    simp [Canvas.DrawAll]

/-- An element of `range` over a slice: its index is in range and its value is
an element of the slice. -/
theorem enum_mem {α : Type} (l : List α) (c : Nat × α) (hc : c ∈ l.enum) :
    c.1 < l.length ∧ c.2 ∈ l := by
  have h1 : l[c.1]? = some c.2 := List.mk_mem_enum_iff_getElem?.mp hc
  obtain ⟨hlt, hget⟩ := List.getElem?_eq_some.mp h1
  exact ⟨hlt, hget ▸ List.getElem_mem hlt⟩

/-- Go `vgimg.New` on a positive size that the library can make an image of. -/
theorem vgimg_New_ok (lib : PlotLib) (w h : ℚ) (hw : 0 < w) (hh : 0 < h)
    (hNew : lib.New w h = true) : vgimg.New lib w h = .ok ⟨w, h, []⟩ := by
  have hn : ¬ (w ≤ 0 ∨ h ≤ 0) := by
    intro hc
    rcases hc with hc | hc
    · exact absurd hw (not_lt.mpr hc)
    · exact absurd hh (not_lt.mpr hc)
  unfold vgimg.New
  rw [if_neg hn, if_pos hNew]

/-- Go `vgimg.New` on a size that is not positive. -/
theorem vgimg_New_zero (lib : PlotLib) (w h : ℚ) (hw : w ≤ 0) :
    vgimg.New lib w h = .error (Panic.library "vgimg.New") := by
  unfold vgimg.New
  rw [if_pos (Or.inl hw)]

/-- The canvas `PairPlot` has drawn when there is at least one column, the
columns are valid slices of one common length, there is one label per column,
and the library makes the canvas and accepts the plotted values of every column
and pair of columns. -/
theorem PairPlot_result (lib : PlotLib) (h : Heap) (data : List Slice) (labels : List String)
    (hK : 0 < data.length) (hInch : 0 < lib.Inch)
    (hNew : lib.New (4 * lib.Inch * (labels.length : ℚ)) (4 * lib.Inch * (labels.length : ℚ))
      = true)
    (hvalid : ∀ a, a ∈ data → a < h.length)
    (hlab : labels.length = data.length)
    (hlen : ∀ a, a ∈ data → ∀ b, b ∈ data → (h.read a).length = (h.read b).length)
    (hH : ∀ a, a ∈ data → lib.NewHist ((h.read a).map nanToZero) 16 = true)
    (hS : ∀ a, a ∈ data → ∀ b, b ∈ data →
      lib.NewScatter (scatterPoints (h.read a) (h.read b)) = true) :
    (PairPlot lib h data labels).result =
      .ok ⟨4 * lib.Inch * (labels.length : ℚ), 4 * lib.Inch * (labels.length : ℚ),
        data.enum.flatMap (PairPlot.rowDraws lib h data labels)⟩ := by
  have hpos : (0 : ℚ) < 4 * lib.Inch * (labels.length : ℚ) := by
    have hl : (0 : ℚ) < (labels.length : ℚ) := by
      rw [hlab]; exact_mod_cast hK
    positivity
  unfold PairPlot
  simp only [vgimg_New_ok lib _ _ hpos hpos hNew]
  have hrow : ∀ r, r ∈ data.enum → ∀ h1 dc, h <+: h1 →
      (Run.loop (PairPlot.cell lib labels labels.length (4 * lib.Inch) r.1 r.2)
          data.enum h1 dc).result =
        .ok (dc.DrawAll (PairPlot.rowDraws lib h data labels r)) ∧
      h <+: (Run.loop (PairPlot.cell lib labels labels.length (4 * lib.Inch) r.1 r.2)
          data.enum h1 dc).heap := by
    intro r hr h1 dc hp
    obtain ⟨hr1, hr2⟩ := enum_mem data r hr
    have key := Run_loop_ok (fun h2 => h <+: h2)
      (fun (c : Nat × Slice) (dc : Canvas) =>
        dc.Draw (PairPlot.cellPlot h labels r.1 r.2 c.1 c.2)
          (PairPlot.rect labels.length (4 * lib.Inch) r.1 c.1))
      (PairPlot.cell lib labels labels.length (4 * lib.Inch) r.1 r.2) data.enum
      (by
        intro c hc h2 dc2 hp2
        obtain ⟨hc1, hc2⟩ := enum_mem data c hc
        have hres := PairPlot_plot_result lib labels r.1 r.2 c.1 c.2 h h2 hp2
          (hvalid c.2 hc2) (hvalid r.2 hr2) (by omega) (by omega)
          (hlen c.2 hc2 r.2 hr2) (hH c.2 hc2) (hS c.2 hc2 r.2 hr2)
        have hfr := PairPlot_plot_frame lib labels r.1 r.2 c.1 c.2 h h2 hp2
        unfold PairPlot.cell
        split
        · next h3 e heq =>
          rw [heq] at hres
          exact absurd hres (by simp)
        · next h3 pl heq =>
          rw [heq] at hres hfr
          simp only [Except.ok.injEq] at hres
          exact ⟨by rw [hres], hfr⟩)
      h1 dc hp
    rw [foldl_Draw (fun (c : Nat × Slice) =>
      (PairPlot.cellPlot h labels r.1 r.2 c.1 c.2,
        PairPlot.rect labels.length (4 * lib.Inch) r.1 c.1))] at key
    exact key
  have key := Run_loop_ok (fun h1 => h <+: h1)
    (fun (r : Nat × Slice) (dc : Canvas) => dc.DrawAll (PairPlot.rowDraws lib h data labels r))
    (fun (r : Nat × Slice) h1 dc =>
      Run.loop (PairPlot.cell lib labels labels.length (4 * lib.Inch) r.1 r.2) data.enum h1 dc)
    data.enum (fun r hr h1 dc hp => hrow r hr h1 dc hp) h
    ⟨4 * lib.Inch * (labels.length : ℚ), 4 * lib.Inch * (labels.length : ℚ), []⟩
    (List.prefix_refl h)
  rw [foldl_DrawAll] at key
  rw [key.1]
  simp [Canvas.DrawAll]

/-- With no label the canvas has size zero: `PairPlot` panics in `vgimg.New`
before it draws or allocates anything. -/
theorem PairPlot_no_label (lib : PlotLib) (h : Heap) (data : List Slice) :
    PairPlot lib h data [] = ⟨h, .error (Panic.library "vgimg.New")⟩ := by
  unfold PairPlot
  simp only [List.length_nil, Nat.cast_zero, mul_zero,
    vgimg_New_zero lib 0 0 (le_refl 0)]

/-- Indexing a list of `l.length` rows of `n` entries each, laid end to end. -/
theorem flatMap_getElem? {α β : Type} (g : α → List β) (n : Nat) (l : List α)
    (hg : ∀ a, a ∈ l → (g a).length = n) (i j : Nat) (hj : j < n) :
    (l.flatMap g)[i * n + j]? = (l[i]?).bind (fun a => (g a)[j]?) := by
  induction l generalizing i with
  | nil => simp
  | cons a l ih =>
    have ha : (g a).length = n := hg a (List.mem_cons_self a l)
    rw [List.flatMap_cons]
    cases i with
    | zero =>
      have hj2 : j < (g a).length := by omega
      simp [List.getElem?_append_left hj2]
    | succ i =>
      have hle : (g a).length ≤ (i + 1) * n + j := by
        rw [ha, Nat.succ_mul]; omega
      have hsub : (i + 1) * n + j - (g a).length = i * n + j := by
        rw [ha, Nat.succ_mul]; omega
      rw [List.getElem?_append_right hle, hsub,
        ih (fun b hb => hg b (List.mem_cons_of_mem a hb))]
      simp

/-- Length of a list of `l.length` rows of `n` entries each, laid end to end. -/
theorem flatMap_length {α β : Type} (g : α → List β) (n : Nat) (l : List α)
    (hg : ∀ a, a ∈ l → (g a).length = n) :
    (l.flatMap g).length = l.length * n := by
  induction l with
  | nil => simp
  | cons a l ih =>
    rw [List.flatMap_cons, List.length_append, hg a (List.mem_cons_self a l),
      ih (fun b hb => hg b (List.mem_cons_of_mem a hb)), List.length_cons, Nat.succ_mul]
    omega

/-- Number of draws of `PairPlot` on a table of `K` columns. -/
theorem PairPlot_drawn_length (lib : PlotLib) (h : Heap) (data : List Slice)
    (labels : List String) :
    (data.enum.flatMap (PairPlot.rowDraws lib h data labels)).length =
      data.length * data.length := by
  rw [flatMap_length (PairPlot.rowDraws lib h data labels) data.length data.enum
    (fun r _ => by simp [PairPlot.rowDraws])]
  simp

/-- The draw of cell `(row, col)` is draw number `row * K + col`. -/
theorem PairPlot_drawn_get (lib : PlotLib) (h : Heap) (data : List Slice)
    (labels : List String) (row col : Nat) (hrow : row < data.length)
    (hcol : col < data.length) :
    (data.enum.flatMap (PairPlot.rowDraws lib h data labels))[row * data.length + col]? =
      some (PairPlot.cellPlot h labels row (data.getD row 0) col (data.getD col 0),
        PairPlot.rect labels.length (4 * lib.Inch) row col) := by
  rw [flatMap_getElem? (PairPlot.rowDraws lib h data labels) data.length data.enum
    (fun r _ => by simp [PairPlot.rowDraws]) row col hcol]
  simp [List.getElem?_enum, PairPlot.rowDraws, List.getElem?_eq_getElem hrow,
    List.getElem?_eq_getElem hcol, List.getD_eq_getElem?_getD]

/-! ## Claims on `PairPlot` -/

/-- C3, as stated, fails on columns of different lengths: with the columns
`[1, 2]` and `[1]`, the scatter of cell `(1, 0)` reads `yData[1]` past the end of
the shorter column and `PairPlot` panics. -/
theorem PairPlot_ragged_panics :
    (PairPlot gonumFinite heapRagged [0, 1] ["a", "b"]).result =
      .error (Panic.indexOutOfRange 1 1) := by
  have hnew : vgimg.New gonumFinite (4 * gonumFinite.Inch * ((["a", "b"].length : Nat) : ℚ))
      (4 * gonumFinite.Inch * ((["a", "b"].length : Nat) : ℚ)) =
      .ok ⟨4 * gonumFinite.Inch * ((["a", "b"].length : Nat) : ℚ),
        4 * gonumFinite.Inch * ((["a", "b"].length : Nat) : ℚ), []⟩ :=
    vgimg_New_ok gonumFinite _ _ (by simp [gonumFinite]) (by simp [gonumFinite]) rfl
  unfold PairPlot
  simp only [hnew]
  rfl

/-- C3 (amended): for `K >= 1` columns of one common length with `K` labels, and a
library that makes the canvas and accepts their plotted values, `PairPlot` draws
exactly `K * K` panels, the panel of cell `(row, col)` being draw number `row * K + col`: on the
diagonal the histogram of `data[col]` labelled `labels[col]`, elsewhere the
scatter with x series `data[col]`, y series `data[row]`, x label `labels[col]`
and y label `labels[row]`. -/
theorem PairPlot_draws_grid (lib : PlotLib) (h : Heap) (data : List Slice)
    (labels : List String)
    (hK : 0 < data.length) (hInch : 0 < lib.Inch)
    (hNew : lib.New (4 * lib.Inch * (labels.length : ℚ)) (4 * lib.Inch * (labels.length : ℚ))
      = true)
    (hvalid : ∀ a, a ∈ data → a < h.length)
    (hlab : labels.length = data.length)
    (hlen : ∀ a, a ∈ data → ∀ b, b ∈ data → (h.read a).length = (h.read b).length)
    (hH : ∀ a, a ∈ data → lib.NewHist ((h.read a).map nanToZero) 16 = true)
    (hS : ∀ a, a ∈ data → ∀ b, b ∈ data →
      lib.NewScatter (scatterPoints (h.read a) (h.read b)) = true) :
    ∃ canvas, (PairPlot lib h data labels).result = .ok canvas ∧
      canvas.drawn.length = data.length * data.length ∧
      ∀ row col, row < data.length → col < data.length →
        (canvas.drawn.get? (row * data.length + col)).map Prod.fst =
          some (if row = col then
              histogramPlot (h.read (data.getD col 0)) (labels.getD col "")
            else
              scatterPlot (h.read (data.getD col 0)) (h.read (data.getD row 0))
                (labels.getD col "") (labels.getD row "")) := by
  refine ⟨_, PairPlot_result lib h data labels hK hInch hNew hvalid hlab hlen hH hS, ?_, ?_⟩
  · exact PairPlot_drawn_length lib h data labels
  · intro row col hrow hcol
    rw [List.get?_eq_getElem?, PairPlot_drawn_get lib h data labels row col hrow hcol]
    rfl

/-- C3 (amended), on a table of two columns of two values, one of them
not-a-number. -/
theorem PairPlot_draws_grid_witness :
    ∃ canvas, (PairPlot gonumFinite heapNaN [0, 1] ["a", "b"]).result = .ok canvas ∧
      canvas.drawn.length = 2 * 2 ∧
      ∀ row col, row < 2 → col < 2 →
        (canvas.drawn.get? (row * 2 + col)).map Prod.fst =
          some (if row = col then
              histogramPlot (heapNaN.read (([0, 1] : List Slice).getD col 0))
                (["a", "b"].getD col "")
            else
              scatterPlot (heapNaN.read (([0, 1] : List Slice).getD col 0))
                (heapNaN.read (([0, 1] : List Slice).getD row 0))
                (["a", "b"].getD col "") (["a", "b"].getD row "")) :=
  PairPlot_draws_grid gonumFinite heapNaN [0, 1] ["a", "b"]
    (by decide) (by simp [gonumFinite]) rfl
    (by decide) (by decide) (by decide) (by decide) (by decide)

/-- C4, as stated, fails: on a table of two columns the panel of cell `(0, 0)`
is drawn into the vertical extent `[t, 2t]`, the top strip of the canvas, and
the panel of cell `(1, 0)` into `[0, t]`, with `t = 4 * 72`. -/
theorem PairPlot_row_zero_on_top :
    ∃ canvas, (PairPlot gonumFinite heapNaN [0, 1] ["a", "b"]).result = .ok canvas ∧
      canvas.Height = 576 ∧
      (canvas.drawn.get? (0 * 2 + 0)).map Prod.snd = some ⟨⟨0, 288⟩, ⟨288, 576⟩⟩ ∧
      (canvas.drawn.get? (1 * 2 + 0)).map Prod.snd = some ⟨⟨0, 0⟩, ⟨288, 288⟩⟩ := by
  refine ⟨_, PairPlot_result gonumFinite heapNaN [0, 1] ["a", "b"]
    (by decide) (by simp [gonumFinite]) rfl
    (by decide) (by decide) (by decide) (by decide) (by decide), ?_, ?_, ?_⟩
  · simp [gonumFinite]; norm_num
  · have e := PairPlot_drawn_get gonumFinite heapNaN [0, 1] ["a", "b"] 0 0
      (by decide) (by decide)
    rw [List.get?_eq_getElem?]
    show Option.map Prod.snd
      ([0, 1].enum.flatMap (PairPlot.rowDraws gonumFinite heapNaN [0, 1] ["a", "b"]))[
        0 * ([0, 1] : List Slice).length + 0]? = _
    rw [e]
    simp [PairPlot.rect, gonumFinite]; norm_num
  · have e := PairPlot_drawn_get gonumFinite heapNaN [0, 1] ["a", "b"] 1 0
      (by decide) (by decide)
    rw [List.get?_eq_getElem?]
    show Option.map Prod.snd
      ([0, 1].enum.flatMap (PairPlot.rowDraws gonumFinite heapNaN [0, 1] ["a", "b"]))[
        1 * ([0, 1] : List Slice).length + 0]? = _
    rw [e]
    simp [PairPlot.rect, gonumFinite]; norm_num

/-- C4 (amended): for `K >= 1` columns of one common length with `K` labels and
tile size `t = 4 * Inch`, when the library makes the canvas and accepts the
plotted values, the canvas is `t * K` by `t * K` and the panel of cell
`(row, col)` is drawn into the rectangle of horizontal extent
`[col * t, (col + 1) * t]` and vertical extent `[(K - 1 - row) * t, (K - row) * t]`:
the vertical position decreases as the row index grows, row `0` being the top
row and row `K - 1` the bottom row. -/
theorem PairPlot_cell_rectangle (lib : PlotLib) (h : Heap) (data : List Slice)
    (labels : List String)
    (hK : 0 < data.length) (hInch : 0 < lib.Inch)
    (hNew : lib.New (4 * lib.Inch * (labels.length : ℚ)) (4 * lib.Inch * (labels.length : ℚ))
      = true)
    (hvalid : ∀ a, a ∈ data → a < h.length)
    (hlab : labels.length = data.length)
    (hlen : ∀ a, a ∈ data → ∀ b, b ∈ data → (h.read a).length = (h.read b).length)
    (hH : ∀ a, a ∈ data → lib.NewHist ((h.read a).map nanToZero) 16 = true)
    (hS : ∀ a, a ∈ data → ∀ b, b ∈ data →
      lib.NewScatter (scatterPoints (h.read a) (h.read b)) = true) :
    ∃ canvas, (PairPlot lib h data labels).result = .ok canvas ∧
      canvas.Width = 4 * lib.Inch * (data.length : ℚ) ∧
      canvas.Height = 4 * lib.Inch * (data.length : ℚ) ∧
      ∀ row col, row < data.length → col < data.length →
        (canvas.drawn.get? (row * data.length + col)).map Prod.snd =
          some ⟨⟨(col : ℚ) * (4 * lib.Inch),
                 ((data.length : ℚ) - 1 - (row : ℚ)) * (4 * lib.Inch)⟩,
                ⟨((col : ℚ) + 1) * (4 * lib.Inch),
                 ((data.length : ℚ) - (row : ℚ)) * (4 * lib.Inch)⟩⟩ := by
  refine ⟨_, PairPlot_result lib h data labels hK hInch hNew hvalid hlab hlen hH hS, ?_, ?_, ?_⟩
  · simp [hlab]
  · simp [hlab]
  · intro row col hrow hcol
    rw [List.get?_eq_getElem?, PairPlot_drawn_get lib h data labels row col hrow hcol]
    simp only [Option.map_some', PairPlot.rect, hlab, Option.some.injEq, Rectangle.mk.injEq,
      Point.mk.injEq]
    push_cast
    refine ⟨⟨trivial, ?_⟩, ?_, ?_⟩ <;> ring

/-- C4 (amended), on a table of two columns: cell `(0, 1)` is drawn into the
top right tile of the canvas. -/
theorem PairPlot_cell_rectangle_witness :
    ∃ canvas, (PairPlot gonumFinite heapNaN [0, 1] ["a", "b"]).result = .ok canvas ∧
      canvas.Width = 4 * gonumFinite.Inch * ((2 : Nat) : ℚ) ∧
      canvas.Height = 4 * gonumFinite.Inch * ((2 : Nat) : ℚ) ∧
      ∀ row col, row < 2 → col < 2 →
        (canvas.drawn.get? (row * 2 + col)).map Prod.snd =
          some ⟨⟨(col : ℚ) * (4 * gonumFinite.Inch),
                 (((2 : Nat) : ℚ) - 1 - (row : ℚ)) * (4 * gonumFinite.Inch)⟩,
                ⟨((col : ℚ) + 1) * (4 * gonumFinite.Inch),
                 (((2 : Nat) : ℚ) - (row : ℚ)) * (4 * gonumFinite.Inch)⟩⟩ :=
  PairPlot_cell_rectangle gonumFinite heapNaN [0, 1] ["a", "b"]
    (by decide) (by simp [gonumFinite]) rfl
    (by decide) (by decide) (by decide) (by decide) (by decide)

/-- C9: `PairPlot` does not write the table it is given. Every slice that exists
before the call, the columns of `data` among them, holds after the call (or at
the panic that ends it) the values it held before; the histogram and scatter
panels replace not-a-number values in fresh copies only. -/
theorem PairPlot_keeps_table (lib : PlotLib) (h : Heap) (data : List Slice)
    (labels : List String) :
    h <+: (PairPlot lib h data labels).heap ∧
    ∀ c, c ∈ data → c < h.length → ∀ r,
      ((PairPlot lib h data labels).heap.read c).get? r = (h.read c).get? r := by
  refine ⟨PairPlot_frame lib h data labels, ?_⟩
  intro c _ hc r
  rw [prefix_read h _ (PairPlot_frame lib h data labels) c hc]

/-- C9, on a table with a not-a-number value: the first column still holds it
after `PairPlot`, while the histogram drawn first shows `0` in its place. -/
theorem PairPlot_keeps_table_witness :
    ((0 : Slice) ∈ ([0, 1] : List Slice) ∧ (0 : Slice) < heapNaN.length) ∧
    ((PairPlot gonumFinite heapNaN [0, 1] ["a", "b"]).heap.read 0).get? 0 = some F64.nan :=
  ⟨⟨by decide, by decide⟩,
   (PairPlot_keeps_table gonumFinite heapNaN [0, 1] ["a", "b"]).2 0 (by decide) (by decide) 0⟩

/-! ## Claims on `PlotHistogram` -/

/-- C10, as stated, fails: after `PlotHistogram` on the slice `[NaN, 1]` the
caller's slice holds `[0, 1]`. -/
theorem PlotHistogram_overwrites_caller_slice :
    (PlotHistogram gonumFinite [[F64.nan, F64.num 1]] 0 "v").heap.read 0 =
      [F64.zero, F64.num 1] ∧
    (PlotHistogram gonumFinite [[F64.nan, F64.num 1]] 0 "v").heap.read 0 ≠
      Heap.read [[F64.nan, F64.num 1]] 0 := by
  constructor
  · rfl
  · intro hc
    have h2 : (PlotHistogram gonumFinite [[F64.nan, F64.num 1]] 0 "v").heap.read 0 =
        [F64.zero, F64.num 1] := rfl
    rw [h2] at hc
    have h3 : Heap.read [[F64.nan, F64.num 1]] 0 = [F64.nan, F64.num 1] := rfl
    rw [h3] at hc
    simp [F64.zero] at hc

/-- C10 (amended): `PlotHistogram` replaces, in the caller's slice itself, every
not-a-number element by `0`. After the call the slice holds the plotted values
(elements that are not not-a-number are as before), every other slice is as
before, and the histogram is built with 16 bins from the slice as replaced
when the library accepts it. -/
theorem PlotHistogram_replaces_in_place (lib : PlotLib) (h : Heap) (data : Slice)
    (label : String) :
    (PlotHistogram lib h data label).heap.read data = (h.read data).map nanToZero ∧
    (PlotHistogram lib h data label).heap.length = h.length ∧
    (∀ b, b ≠ data → (PlotHistogram lib h data label).heap.read b = h.read b) ∧
    (PlotHistogram lib h data label).result =
      if lib.NewHist ((h.read data).map nanToZero) 16 then
        .ok (histogramPlot (h.read data) label)
      else .error (Panic.library "NewHist") := by
  refine ⟨?_, ?_, ?_, ?_⟩
  · rw [PlotHistogram_heap]
    by_cases ha : data < h.length
    · exact Heap_read_set_self h data _ ha
    · have hn : h[data]? = none := List.getElem?_eq_none (Nat.le_of_not_lt ha)
      have h0 : h.read data = [] := by
        simp [Heap.read, List.getD_eq_getElem?_getD, hn]
      rw [List.set_eq_of_length_le (Nat.le_of_not_lt ha), h0]
      rfl
  · rw [PlotHistogram_heap]
    simp
  · intro b hb
    rw [PlotHistogram_heap]
    exact Heap_read_set_ne h data b _ (fun e => hb e.symm)
  · rw [PlotHistogram_eq]
    split <;> rfl

/-- C10 (amended), on a heap of two slices, the first holding `[NaN, 1]`: the
other slice is as before. -/
theorem PlotHistogram_replaces_in_place_witness :
    (1 : Slice) ≠ 0 ∧ (PlotHistogram gonumFinite heapNaN 0 "v").heap.read 1 = heapNaN.read 1 :=
  ⟨by decide, (PlotHistogram_replaces_in_place gonumFinite heapNaN 0 "v").2.2.1 1 (by decide)⟩

/-! ## Claims on `PlotScatter` -/

/-- A plotted value is never not-a-number. -/
theorem nanToZero_IsNaN (v : F64) : (nanToZero v).IsNaN = false := by
  cases v <;> simp [nanToZero, F64.IsNaN, F64.zero]

/-- C7: for `xs` and `ys` of equal length `n`, `PlotScatter` builds exactly `n`
points; point `i` has `X = 0` if `xs[i]` is not-a-number and `X = xs[i]`
otherwise, and `Y` likewise from `ys[i]`; no coordinate is not-a-number; and
these are the points handed to the scatter of the plot returned. -/
theorem PlotScatter_builds_points (xs ys : List F64) (hlen : xs.length = ys.length) :
    ∃ pts, PlotScatter.points xs ys = .ok pts ∧
      pts.length = xs.length ∧
      (∀ i, i < xs.length →
        pts.get? i = some
          ⟨if (xs.getD i F64.zero).IsNaN then F64.zero else xs.getD i F64.zero,
           if (ys.getD i F64.zero).IsNaN then F64.zero else ys.getD i F64.zero⟩) ∧
      (∀ p, p ∈ pts → p.X.IsNaN = false ∧ p.Y.IsNaN = false) ∧
      (∀ (lib : PlotLib) (xLabel yLabel : String),
        PlotScatter lib xs ys xLabel yLabel =
          if lib.NewScatter pts then
            .ok { Title := yLabel ++ " vs " ++ xLabel, XLabel := xLabel, YLabel := yLabel,
                  plotters := [Plotter.scatter pts 2 (Color.rgba 0 0 255 255)], Legend := [] }
          else .error (Panic.library "NewScatter")) := by
  refine ⟨_, PlotScatter_points_ok xs ys (le_of_eq hlen), ?_, ?_, ?_, ?_⟩
  · simp
  · intro i hi
    rw [List.get?_eq_getElem?, List.getElem?_map, List.getElem?_range hi]
    rfl
  · intro p hp
    obtain ⟨i, _, rfl⟩ := List.mem_map.mp hp
    exact ⟨nanToZero_IsNaN _, nanToZero_IsNaN _⟩
  · intro lib xLabel yLabel
    unfold PlotScatter
    rw [PlotScatter_points_ok xs ys (le_of_eq hlen)]
    simp only [bind, Except.bind]
    split <;> rfl

/-- C7, on `xs = [1, NaN]`, `ys = [NaN, 5]`: the points are `(1, 0)` and `(0, 5)`. -/
theorem PlotScatter_builds_points_witness :
    ∃ pts, PlotScatter.points [F64.num 1, F64.nan] [F64.nan, F64.num 5] = .ok pts ∧
      pts.length = 2 ∧
      (∀ i, i < 2 →
        pts.get? i = some
          ⟨if (([F64.num 1, F64.nan] : List F64).getD i F64.zero).IsNaN then F64.zero
            else ([F64.num 1, F64.nan] : List F64).getD i F64.zero,
           if (([F64.nan, F64.num 5] : List F64).getD i F64.zero).IsNaN then F64.zero
            else ([F64.nan, F64.num 5] : List F64).getD i F64.zero⟩) ∧
      (∀ p, p ∈ pts → p.X.IsNaN = false ∧ p.Y.IsNaN = false) ∧
      (∀ (lib : PlotLib) (xLabel yLabel : String),
        PlotScatter lib [F64.num 1, F64.nan] [F64.nan, F64.num 5] xLabel yLabel =
          if lib.NewScatter pts then
            .ok { Title := yLabel ++ " vs " ++ xLabel, XLabel := xLabel, YLabel := yLabel,
                  plotters := [Plotter.scatter pts 2 (Color.rgba 0 0 255 255)], Legend := [] }
          else .error (Panic.library "NewScatter")) :=
  PlotScatter_builds_points [F64.num 1, F64.nan] [F64.nan, F64.num 5] rfl

/-- C8: what `PlotScatter` does on series of different lengths. When `ys` is
shorter than `xs` it panics on `yData[len(ys)]`. When `ys` is longer than `xs`
it does not fail: it returns the scatter of the first `len(xs)` elements of
`ys` against `xs` and ignores the other elements of `ys`. -/
theorem PlotScatter_length_mismatch (lib : PlotLib) (xs ys : List F64)
    (xLabel yLabel : String) :
    (ys.length < xs.length →
      PlotScatter lib xs ys xLabel yLabel =
        .error (Panic.indexOutOfRange ys.length ys.length)) ∧
    (xs.length < ys.length → lib.NewScatter (scatterPoints xs ys) = true →
      PlotScatter lib xs ys xLabel yLabel = .ok (scatterPlot xs ys xLabel yLabel) ∧
      (scatterPoints xs ys).length = xs.length ∧
      scatterPoints xs ys = scatterPoints xs (ys.take xs.length)) := by
  constructor
  · intro hlt
    unfold PlotScatter
    rw [PlotScatter_points_error xs ys hlt]
    rfl
  · intro hlt hlib
    refine ⟨PlotScatter_ok lib xs ys xLabel yLabel (le_of_lt hlt) hlib, ?_, ?_⟩
    · simp [scatterPoints, List.length_zipWith]
      omega
    · unfold scatterPoints
      apply List.ext_getElem?
      intro t
      by_cases ht : t < xs.length
      · simp [List.getElem?_zipWith, List.getElem?_take, ht]
      · have h3 : xs[t]? = none := List.getElem?_eq_none (by omega)
        simp [List.getElem?_zipWith, h3]

/-- C8, on `xs = [1]`, `ys = [1, 2]`: `PlotScatter` returns a plot of the single
point `(1, 1)`; the `2` is ignored. -/
theorem PlotScatter_length_mismatch_witness :
    (([F64.num 1] : List F64).length < ([F64.num 1, F64.num 2] : List F64).length ∧
      gonumFinite.NewScatter (scatterPoints [F64.num 1] [F64.num 1, F64.num 2]) = true) ∧
    PlotScatter gonumFinite [F64.num 1] [F64.num 1, F64.num 2] "x" "y" =
      .ok { Title := "y vs x", XLabel := "x", YLabel := "y",
            plotters := [Plotter.scatter [⟨F64.num 1, F64.num 1⟩] 2 (Color.rgba 0 0 255 255)],
            Legend := [] } :=
  ⟨⟨by decide, by decide⟩,
   ((PlotScatter_length_mismatch gonumFinite [F64.num 1] [F64.num 1, F64.num 2] "x" "y").2
      (by decide) (by decide)).1⟩

/-! ## Claims on `PlotModel` -/

/-- A turn of the loop of `PlotModel`, with the index in range of both series
and a first weight. -/
theorem PlotModel_body_ok (xs ys : List F64) (w : F64) (ws : List F64) (bias : F64) (i : Nat)
    (hx : i < xs.length) (hy : i < ys.length) :
    PlotModel.body xs ys (w :: ws) bias
        (filled xs.length i (fun t => ⟨xs.getD t F64.zero, ys.getD t F64.zero⟩),
         filled xs.length i
           (fun t => ⟨xs.getD t F64.zero, F64.add (F64.mul w (xs.getD t F64.zero)) bias⟩)) i =
      .ok (filled xs.length (i + 1) (fun t => ⟨xs.getD t F64.zero, ys.getD t F64.zero⟩),
           filled xs.length (i + 1)
             (fun t => ⟨xs.getD t F64.zero,
               F64.add (F64.mul w (xs.getD t F64.zero)) bias⟩)) := by
  have hw : index (w :: ws) 0 = .ok w := rfl
  simp only [PlotModel.body, index_ok xs i F64.zero hx, index_ok ys i F64.zero hy, hw,
    bind, Except.bind, pure, Except.pure]
  rw [setY_setX_filled _ _ _ _ _ hx rfl, setY_setX_filled _ _ _ _ _ hx rfl]

/-- The two slices the loop of `PlotModel` builds. -/
theorem PlotModel_loop_eq (xs ys : List F64) (w : F64) (ws : List F64) (bias : F64)
    (hlen : xs.length = ys.length) :
    (List.range xs.length).foldlM (PlotModel.body xs ys (w :: ws) bias)
        (List.replicate xs.length XY.zero, List.replicate xs.length XY.zero) =
      .ok (modelPoints xs ys, modelLine xs w bias) := by
  have h1 : modelPoints xs ys =
      filled xs.length xs.length (fun t => ⟨xs.getD t F64.zero, ys.getD t F64.zero⟩) := by
    rw [filled_all]
    exact (map_range_zipWith (fun x y => (⟨x, y⟩ : XY)) xs ys F64.zero (le_of_eq hlen)).symm
  have h2 : modelLine xs w bias =
      filled xs.length xs.length
        (fun t => ⟨xs.getD t F64.zero, F64.add (F64.mul w (xs.getD t F64.zero)) bias⟩) := by
    rw [filled_all]
    unfold modelLine
    conv_lhs => rw [← map_range_getD xs F64.zero]
    rw [List.map_map]
    rfl
  have h0 : (List.replicate xs.length XY.zero, List.replicate xs.length XY.zero) =
      (filled xs.length 0 (fun t => ⟨xs.getD t F64.zero, ys.getD t F64.zero⟩),
       filled xs.length 0
         (fun t => ⟨xs.getD t F64.zero, F64.add (F64.mul w (xs.getD t F64.zero)) bias⟩)) := by
    rw [filled_zero, filled_zero]
  rw [h1, h2, h0]
  exact foldlM_range_ok (PlotModel.body xs ys (w :: ws) bias)
    (fun i =>
      (filled xs.length i (fun t => ⟨xs.getD t F64.zero, ys.getD t F64.zero⟩),
       filled xs.length i
         (fun t => ⟨xs.getD t F64.zero, F64.add (F64.mul w (xs.getD t F64.zero)) bias⟩)))
    xs.length (fun i hi => PlotModel_body_ok xs ys w ws bias i hi (by omega))

/-- C6: for `xs`, `ys` of equal length `n`, a non-empty `weights` and a `bias`,
`PlotModel` builds exactly `n` scatter points `(xs[i], ys[i])` and exactly `n`
line points `(xs[i], weights[0] * xs[i] + bias)`, sampled at the x positions of
the data, and hands them to the scatter and the line of the plot; for
`xs = [0, 1, 2]`, weight `2` and bias `1` the line points are `(0, 1)`, `(1, 3)`,
`(2, 5)`. -/
theorem PlotModel_builds_points (lib : PlotLib) (xs ys : List F64) (w : F64) (ws : List F64)
    (bias : F64) (feature label : String) (hlen : xs.length = ys.length) :
    PlotModel lib xs ys (w :: ws) bias feature label =
      (if lib.NewScatter (modelPoints xs ys) then
        if lib.NewLine (modelLine xs w bias) then
          .ok { Title := "Model Plot", XLabel := feature, YLabel := label,
                plotters := [Plotter.scatter (modelPoints xs ys) 3 Color.default,
                  Plotter.line (modelLine xs w bias) 2 (Color.palette 1)],
                Legend := [] }
        else .error (Panic.library "NewLine")
      else .error (Panic.library "NewScatter")) ∧
    (modelPoints xs ys).length = xs.length ∧
    (modelLine xs w bias).length = xs.length ∧
    (∀ i, i < xs.length →
      (modelPoints xs ys).get? i = some ⟨xs.getD i F64.zero, ys.getD i F64.zero⟩ ∧
      (modelLine xs w bias).get? i =
        some ⟨xs.getD i F64.zero, F64.add (F64.mul w (xs.getD i F64.zero)) bias⟩) ∧
    modelLine [F64.num 0, F64.num 1, F64.num 2] (F64.num 2) (F64.num 1) =
      [⟨F64.num 0, F64.num 1⟩, ⟨F64.num 1, F64.num 3⟩, ⟨F64.num 2, F64.num 5⟩] := by
  refine ⟨?_, ?_, ?_, ?_, ?_⟩
  · unfold PlotModel
    simp only [hlen, ne_eq, not_true_eq_false, if_false, bind, Except.bind, pure, Except.pure]
    rw [← hlen, PlotModel_loop_eq xs ys w ws bias hlen]
    by_cases h1 : lib.NewScatter (modelPoints xs ys) = true
    · by_cases h2 : lib.NewLine (modelLine xs w bias) = true
      · simp [h1, h2, Plot.Add, Plot.New]
      · simp [h1, h2, throw, throwThe, MonadExceptOf.throw]
    · simp [h1, throw, throwThe, MonadExceptOf.throw]
  · simp [modelPoints, hlen]
  · simp [modelLine]
  · intro i hi
    have hi2 : i < ys.length := by omega
    constructor
    · simp [modelPoints, List.get?_eq_getElem?, List.getElem?_zipWith,
        List.getElem?_eq_getElem hi, List.getElem?_eq_getElem hi2, List.getD_eq_getElem?_getD]
    · simp [modelLine, List.get?_eq_getElem?, List.getElem?_eq_getElem hi,
        List.getD_eq_getElem?_getD]
  · simp [modelLine, F64.mul, F64.add]
    norm_num

/-- C6, on `xs = [0, 1, 2]`, `ys = [1, 3, 5]`, weight `2`, bias `1`: the scatter
and the line of the plot both go through `(0, 1)`, `(1, 3)`, `(2, 5)`. -/
theorem PlotModel_builds_points_witness :
    ([F64.num 0, F64.num 1, F64.num 2] : List F64).length =
      ([F64.num 1, F64.num 3, F64.num 5] : List F64).length ∧
    PlotModel gonumFinite [F64.num 0, F64.num 1, F64.num 2] [F64.num 1, F64.num 3, F64.num 5]
        [F64.num 2] (F64.num 1) "TRIP_MILES" "FARE" =
      .ok { Title := "Model Plot", XLabel := "TRIP_MILES", YLabel := "FARE",
            plotters :=
              [Plotter.scatter
                 [⟨F64.num 0, F64.num 1⟩, ⟨F64.num 1, F64.num 3⟩, ⟨F64.num 2, F64.num 5⟩]
                 3 Color.default,
               Plotter.line
                 [⟨F64.num 0, F64.num 1⟩, ⟨F64.num 1, F64.num 3⟩, ⟨F64.num 2, F64.num 5⟩]
                 2 (Color.palette 1)],
            Legend := [] } := by
  refine ⟨rfl, ?_⟩
  rw [(PlotModel_builds_points gonumFinite [F64.num 0, F64.num 1, F64.num 2]
    [F64.num 1, F64.num 3, F64.num 5] (F64.num 2) [] (F64.num 1) "TRIP_MILES" "FARE" rfl).1,
    (PlotModel_builds_points gonumFinite [F64.num 0, F64.num 1, F64.num 2]
    [F64.num 1, F64.num 3, F64.num 5] (F64.num 2) [] (F64.num 1) "TRIP_MILES" "FARE" rfl).2.2.2.2]
  rfl

/-! ## Claims on `PlotMetrics` -/

/-- A turn of the loop of `addLine` with both indices in range. -/
theorem addLine_body_ok (xData yData : List F64) (i : Nat)
    (hx : i < xData.length) (hy : i < yData.length) :
    addLine.body xData yData
        (filled xData.length i (fun t => ⟨xData.getD t F64.zero, yData.getD t F64.zero⟩)) i =
      .ok (filled xData.length (i + 1)
        (fun t => ⟨xData.getD t F64.zero, yData.getD t F64.zero⟩)) := by
  simp only [addLine.body, index_ok xData i F64.zero hx, index_ok yData i F64.zero hy,
    bind, Except.bind, pure, Except.pure]
  rw [setY_setX_filled _ _ _ _ _ hx rfl]

/-- A turn of the loop of `addLine` past the end of `yData`. -/
theorem addLine_body_error (xData yData : List F64) (pts : List XY) (i : Nat)
    (hx : i < xData.length) (hy : yData.length ≤ i) :
    addLine.body xData yData pts i = .error (.indexOutOfRange i yData.length) := by
  simp only [addLine.body, index_ok xData i F64.zero hx, index_error yData i hy,
    bind, Except.bind]

/-- Go `make` on a length within the allocation limit. -/
theorem makeslice_ok (maxAlloc elemSize n : Nat) (h : elemSize * n ≤ maxAlloc) :
    makeslice maxAlloc elemSize (n : Int) = .ok n := by
  have hn : ¬ ((n : Int) < 0 ∨ (maxAlloc : Int) < (elemSize : Int) * (n : Int)) := by
    intro hc
    rcases hc with hc | hc
    · omega
    · have : ((elemSize * n : Nat) : Int) ≤ (maxAlloc : Int) := by exact_mod_cast h
      rw [Nat.cast_mul] at this
      omega
  unfold makeslice
  rw [if_neg hn]
  simp

/-- Go `make` either panics or returns a slice of the length asked for. -/
theorem makeslice_cases (maxAlloc elemSize : Nat) (len : Int) :
    makeslice maxAlloc elemSize len = .error Panic.makeslice ∨
    makeslice maxAlloc elemSize len = .ok len.toNat := by
  unfold makeslice
  split
  · exact Or.inl rfl
  · exact Or.inr rfl

/-- The points of `addLine` when `yData` is at least as long as `xData`. -/
theorem addLine_points_ok (maxAlloc : Nat) (xData yData : List F64)
    (hfit : 16 * xData.length ≤ maxAlloc) (h : xData.length ≤ yData.length) :
    addLine.points maxAlloc xData yData =
      .ok ((List.range xData.length).map
        (fun t => ⟨xData.getD t F64.zero, yData.getD t F64.zero⟩)) := by
  unfold addLine.points
  rw [makeslice_ok maxAlloc 16 xData.length hfit]
  simp only [bind, Except.bind]
  rw [← filled_zero xData.length (fun t => ⟨xData.getD t F64.zero, yData.getD t F64.zero⟩),
    ← filled_all]
  exact foldlM_range_ok (addLine.body xData yData)
    (fun i => filled xData.length i (fun t => ⟨xData.getD t F64.zero, yData.getD t F64.zero⟩))
    xData.length (fun i hi => addLine_body_ok xData yData i hi (by omega))

/-- The points of `addLine` are not built when `yData` is shorter than `xData`:
the loop panics on `yData[len(yData)]`, unless `make` has panicked before. -/
theorem addLine_points_error (maxAlloc : Nat) (xData yData : List F64)
    (h : yData.length < xData.length) :
    ∃ e, addLine.points maxAlloc xData yData = .error e := by
  unfold addLine.points
  rcases makeslice_cases maxAlloc 16 (xData.length : Int) with hm | hm
  · rw [hm]
    exact ⟨_, rfl⟩
  · rw [hm]
    simp only [bind, Except.bind, Int.toNat_ofNat]
    rw [← filled_zero xData.length (fun t => ⟨xData.getD t F64.zero, yData.getD t F64.zero⟩)]
    exact ⟨_, foldlM_range_error (addLine.body xData yData)
      (fun i => filled xData.length i
        (fun t => ⟨xData.getD t F64.zero, yData.getD t F64.zero⟩))
      xData.length yData.length _ h
      (fun i hi => addLine_body_ok xData yData i (by omega) hi)
      (addLine_body_error xData yData _ yData.length h (by omega))⟩

/-- The loop that fills `epochs` in `PlotMetrics`. -/
theorem epochs_loop (n : Nat) :
    (List.range n).foldl (fun epochs i => epochs.set i (F64.num ((i : ℚ) + 1)))
      (List.replicate n F64.zero) = epochsOf n :=
  foldl_set_range (fun (i : Nat) => F64.num ((i : ℚ) + 1)) n _ (by simp)

/-- Number of epochs in `epochs`. -/
theorem epochsOf_length (n : Nat) : (epochsOf n).length = n := by
  simp [epochsOf]

/-- The points `addLine` builds against `epochs` for a series of at least `n` values. -/
theorem addLine_points_epochs (maxAlloc n : Nat) (values : List F64)
    (hfit : 16 * n ≤ maxAlloc) (h : n ≤ values.length) :
    addLine.points maxAlloc (epochsOf n) values = .ok (epochPoints n values) := by
  rw [addLine_points_ok maxAlloc (epochsOf n) values (by rw [epochsOf_length]; exact hfit)
    (by rw [epochsOf_length]; exact h), epochsOf_length]
  unfold epochPoints
  congr 1
  apply List.map_congr_left
  intro t ht
  have ht2 : t < n := List.mem_range.mp ht
  simp [epochsOf, List.getD_eq_getElem?_getD, List.getElem?_range ht2]

/-- `addLine` against `epochs` for a series of at least `n` values. -/
theorem addLine_epochs (maxAlloc : Nat) (lib : PlotLib) (p : Plot) (name : String) (n : Nat)
    (values : List F64) (c : Color) (hfit : 16 * n ≤ maxAlloc) (h : n ≤ values.length) :
    addLine maxAlloc lib p name (epochsOf n) values c =
      if lib.NewLine (epochPoints n values) then
        .ok { p with plotters := p.plotters ++ [Plotter.line (epochPoints n values) 2 c],
                     Legend := p.Legend ++ [name] }
      else .error (Panic.library "NewLine") := by
  unfold addLine
  rw [addLine_points_epochs maxAlloc n values hfit h]
  simp only [bind, Except.bind]
  by_cases h1 : lib.NewLine (epochPoints n values) = true
  · simp [h1, Plot.Add, pure, Except.pure]
  · simp [h1, throw, throwThe, MonadExceptOf.throw]

/-- `addLine` against `epochs` fails for a series of fewer than `n` values. -/
theorem addLine_short (maxAlloc : Nat) (lib : PlotLib) (p : Plot) (name : String) (n : Nat)
    (values : List F64) (c : Color) (h : values.length < n) :
    ∃ e, addLine maxAlloc lib p name (epochsOf n) values c = .error e := by
  obtain ⟨e, he⟩ := addLine_points_error maxAlloc (epochsOf n) values
    (by rw [epochsOf_length]; exact h)
  unfold addLine
  rw [he]
  exact ⟨e, rfl⟩

/-- A turn of the loop of `PlotMetrics` on a series of at least `n` values. -/
theorem PlotMetrics_body_long (maxAlloc : Nat) (lib : PlotLib) (n : Nat) (s : Plot × Nat)
    (m : String × List F64) (hfit : 16 * n ≤ maxAlloc) (h : n ≤ m.2.length) :
    PlotMetrics.body maxAlloc lib (epochsOf n) s m =
      if lib.NewLine (epochPoints n m.2) then
        .ok ({ s.1 with
                plotters := s.1.plotters ++ [Plotter.line (epochPoints n m.2) 2 (colorMap s.2)],
                Legend := s.1.Legend ++ [m.1] }, s.2 + 1)
      else .error (Panic.library "NewLine") := by
  unfold PlotMetrics.body
  rw [addLine_epochs maxAlloc lib s.1 m.1 n m.2 (colorMap s.2) hfit h]
  split <;> rfl

/-- A turn of the loop of `PlotMetrics` fails on a series of fewer than `n` values. -/
theorem PlotMetrics_body_short (maxAlloc : Nat) (lib : PlotLib) (n : Nat) (s : Plot × Nat)
    (m : String × List F64) (h : m.2.length < n) :
    ∃ e, PlotMetrics.body maxAlloc lib (epochsOf n) s m = .error e := by
  obtain ⟨e, he⟩ := addLine_short maxAlloc lib s.1 m.1 n m.2 (colorMap s.2) h
  unfold PlotMetrics.body
  rw [he]
  exact ⟨e, rfl⟩

/-- The loop of `PlotMetrics` over series of at least `n` values each. -/
theorem PlotMetrics_loop_long (maxAlloc : Nat) (lib : PlotLib) (n : Nat)
    (l : List (String × List F64)) (hfit : 16 * n ≤ maxAlloc)
    (h : ∀ m, m ∈ l → n ≤ m.2.length) (pl : Plot) (k : Nat) :
    l.foldlM (PlotMetrics.body maxAlloc lib (epochsOf n)) (pl, k) =
      if l.all (fun m => lib.NewLine (epochPoints n m.2)) then
        .ok ({ pl with
                plotters := pl.plotters ++ (l.enumFrom k).map
                  (fun im => Plotter.line (epochPoints n im.2.2) 2 (colorMap im.1)),
                Legend := pl.Legend ++ l.map Prod.fst }, k + l.length)
      else .error (Panic.library "NewLine") := by
  induction l generalizing pl k with
  | nil => simp [pure, Except.pure]
  | cons m l ih =>
    rw [List.foldlM_cons,
      PlotMetrics_body_long maxAlloc lib n (pl, k) m hfit (h m (List.mem_cons_self m l))]
    by_cases h1 : lib.NewLine (epochPoints n m.2) = true
    · simp only [h1, if_true, bind, Except.bind, List.all_cons, Bool.true_and]
      rw [ih (fun m2 hm2 => h m2 (List.mem_cons_of_mem m hm2))]
      split
      · simp [List.enumFrom_cons, Nat.add_assoc, Nat.add_comm 1]
      · rfl
    · simp [h1, bind, Except.bind]

/-- The loop of `PlotMetrics` fails when one of the series has fewer than `n` values. -/
theorem PlotMetrics_loop_short (maxAlloc : Nat) (lib : PlotLib) (n : Nat)
    (l : List (String × List F64)) (h : ∃ m, m ∈ l ∧ m.2.length < n) (s : Plot × Nat) :
    ∃ e, l.foldlM (PlotMetrics.body maxAlloc lib (epochsOf n)) s = .error e := by
  induction l generalizing s with
  | nil =>
    obtain ⟨m, hm, _⟩ := h
    exact absurd hm (List.not_mem_nil m)
  | cons a l ih =>
    rw [List.foldlM_cons]
    cases hb : PlotMetrics.body maxAlloc lib (epochsOf n) s a with
    | error e => exact ⟨e, rfl⟩
    | ok s1 =>
      obtain ⟨m, hm, hlt⟩ := h
      rcases List.mem_cons.mp hm with rfl | hm2
      · obtain ⟨e, he⟩ := PlotMetrics_body_short maxAlloc lib n s m hlt
        rw [he] at hb
        exact absurd hb (by simp)
      · exact ih ⟨m, hm2, hlt⟩ s1

/-- C5, as stated, fails. With one epoch and the single series `[NaN]`, of
exactly one value, `PlotMetrics` fails: the line built is rejected by a library
that refuses not-a-number values. With `2^62` epochs and no series at all, it
fails in `make([]float64, numEpochs)`. -/
theorem PlotMetrics_fails_on_complete_series :
    PlotMetrics maxAlloc64 gonumFinite 1 [("a", [F64.nan])] =
      .error (Panic.library "NewLine") ∧
    PlotMetrics maxAlloc64 gonumFinite (2 ^ 62) [] = .error Panic.makeslice := by
  constructor
  · rfl
  · have hm : makeslice maxAlloc64 8 (2 ^ 62) = .error Panic.makeslice := by
      unfold makeslice maxAlloc64
      rw [if_pos]
      right
      norm_num
    unfold PlotMetrics
    rw [hm]
    rfl

/-- C5 (amended): `PlotMetrics(N, metricsMap)` fails whenever some series has
fewer than `N` values, in whatever order the map is visited. When `N >= 0`,
`16 * N` bytes are within the allocation limit and every series has exactly `N`
values, the loops of `addLine` do not panic: for each series they build the `N`
points `(i + 1, values[i])`, `i = 0 .. N-1`; `PlotMetrics` returns the plot of
these lines, one per series, if the library accepts every one of them, and fails
with the error of `plotter.NewLine` if it rejects one. -/
theorem PlotMetrics_series_lengths (maxAlloc : Nat) (lib : PlotLib) (N : Int) (hN : 0 ≤ N)
    (metricsMap : List (String × List F64)) :
    ((∃ m, m ∈ metricsMap ∧ (m.2.length : Int) < N) →
      ∃ e, PlotMetrics maxAlloc lib N metricsMap = .error e) ∧
    ((∀ m, m ∈ metricsMap → (m.2.length : Int) = N) → 16 * N ≤ (maxAlloc : Int) →
      PlotMetrics maxAlloc lib N metricsMap =
        (if metricsMap.all (fun m => lib.NewLine (epochPoints N.toNat m.2)) then
          .ok (metricsPlot N.toNat metricsMap)
        else .error (Panic.library "NewLine")) ∧
      (metricsPlot N.toNat metricsMap).plotters.length = metricsMap.length ∧
      ∀ m, m ∈ metricsMap →
        addLine.points maxAlloc (epochsOf N.toNat) m.2 = .ok (epochPoints N.toNat m.2) ∧
        (epochPoints N.toNat m.2).length = m.2.length ∧
        ∀ i, i < m.2.length →
          (epochPoints N.toNat m.2).get? i =
            some ⟨F64.num ((i : ℚ) + 1), m.2.getD i F64.zero⟩) := by
  constructor
  · intro hshort
    obtain ⟨m, hm, hlt⟩ := hshort
    have hlt2 : m.2.length < N.toNat := by omega
    unfold PlotMetrics
    rcases makeslice_cases maxAlloc 8 N with hms | hms
    · rw [hms]
      exact ⟨_, rfl⟩
    · rw [hms]
      obtain ⟨e, he⟩ := PlotMetrics_loop_short maxAlloc lib N.toNat metricsMap ⟨m, hm, hlt2⟩
        ({ Plot.New with
            Title := "Final Moving Average Loss Across Epochs", XLabel := "Epochs",
            YLabel := "Loss" }, 0)
      refine ⟨e, ?_⟩
      simp only [epochs_loop, bind, Except.bind, pure, Except.pure]
      rw [he]
  · intro hall hfit
    have hle : ∀ m, m ∈ metricsMap → N.toNat ≤ m.2.length := by
      intro m hm
      have := hall m hm
      omega
    have hfit2 : 16 * N.toNat ≤ maxAlloc := by omega
    have hfit3 : 8 * N.toNat ≤ maxAlloc := by omega
    have hms : makeslice maxAlloc 8 N = .ok N.toNat := by
      have := makeslice_ok maxAlloc 8 N.toNat hfit3
      rwa [Int.toNat_of_nonneg hN] at this
    refine ⟨?_, ?_, ?_⟩
    · unfold PlotMetrics
      rw [hms]
      simp only [epochs_loop, bind, Except.bind, pure, Except.pure]
      rw [PlotMetrics_loop_long maxAlloc lib N.toNat metricsMap hfit2 hle]
      by_cases hc : (metricsMap.all fun m => lib.NewLine (epochPoints N.toNat m.2)) = true
      · rw [if_pos hc, if_pos hc]
        simp [metricsPlot, Plot.New, List.enum]
      · rw [if_neg hc, if_neg hc]
    · simp [metricsPlot]
    · intro m hm
      have hlen : N.toNat = m.2.length := by
        have := hall m hm
        omega
      refine ⟨addLine_points_epochs maxAlloc N.toNat m.2 hfit2 (hle m hm), ?_, ?_⟩
      · simp [epochPoints, hlen]
      · intro i hi
        have hi2 : i < N.toNat := by omega
        simp [epochPoints, List.get?_eq_getElem?, List.getElem?_range hi2]

/-- C5 (amended), with two epochs: two complete series free of not-a-number
values give the plot of their two lines, and a series of one value makes
`PlotMetrics` fail. -/
theorem PlotMetrics_series_lengths_witness :
    ((0 : Int) ≤ 2 ∧ (∃ m, m ∈ metricsShort ∧ (m.2.length : Int) < 2) ∧
      (∀ m, m ∈ metricsFull → (m.2.length : Int) = 2) ∧
      16 * (2 : Int) ≤ (maxAlloc64 : Int)) ∧
    (∃ e, PlotMetrics maxAlloc64 gonumFinite 2 metricsShort = .error e) ∧
    PlotMetrics maxAlloc64 gonumFinite 2 metricsFull = .ok (metricsPlot 2 metricsFull) := by
  have hshort : ∃ m, m ∈ metricsShort ∧ (m.2.length : Int) < 2 :=
    ⟨("mse", [F64.num 3]), by simp [metricsShort], by simp⟩
  have hfull : ∀ m, m ∈ metricsFull → (m.2.length : Int) = 2 := by
    intro m hm
    simp only [metricsFull, List.mem_cons, List.mem_singleton, List.not_mem_nil, or_false] at hm
    rcases hm with rfl | rfl <;> rfl
  have hfit : 16 * (2 : Int) ≤ (maxAlloc64 : Int) := by decide
  refine ⟨⟨by decide, hshort, hfull, hfit⟩,
    (PlotMetrics_series_lengths maxAlloc64 gonumFinite 2 (by decide) metricsShort).1 hshort, ?_⟩
  rw [((PlotMetrics_series_lengths maxAlloc64 gonumFinite 2 (by decide) metricsFull).2
    hfull hfit).1]
  rfl

end GoML
